import Mathlib

/-!
# Verification of the session/query lifecycle manager (`src/session.ts`)

Shallow embedding of the Claude Telegram bot's session subsystem.

Modelling conventions:
* JavaScript strings are Lean `String`s; `String(x || "")` on an optional
  field is modelled by a field of type `String` whose absent value is `""`
  (JS string truthiness: `if (s)` is `s ≠ ""`).
* `s.includes(p)`, `s.startsWith(p)`, `s.toLowerCase()`, `s.slice(0, n)` are
  modelled character-wise over `String.toList` (`jsIncludes`, `jsStartsWith`,
  `jsToLower`, `jsTake`).
* `String(error)` applied to a thrown `Error` yields `"Error: " ++ message`;
  the model prepends that tag where the code converts a caught error.
* Real time appears only through `Date.now()` in the streaming throttle and
  through the inactivity watchdog.  Each streamed text block carries the
  `Date.now()` value observed while it is processed, and the watchdog is
  modelled by the `timedOut` flag it sets, read where the code reads it.
* Functions imported by `session.ts` from modules absent from the given
  sources (`security.ts`, `config.ts`, the missing tail of `formatting.ts`,
  `handlers/streaming.ts`) are parameters of the model, collected in the
  `Collab` structure; every theorem quantifies over them.
-/

namespace TgBot

/-- JS `String.prototype.includes` on code points: `pat` occurs contiguously
in `s` (the empty pattern always matches, as in JS). -/
def charsContain (pat : List Char) : List Char → Bool
  | [] => pat.isEmpty
  | c :: rest => pat.isPrefixOf (c :: rest) || charsContain pat rest

/-- JS `s.includes(pat)`. -/
def jsIncludes (s pat : String) : Bool := charsContain pat.toList s.toList

/-- JS `s.startsWith(pat)`. -/
def jsStartsWith (s pat : String) : Bool := pat.toList.isPrefixOf s.toList

/-- JS `s.toLowerCase()`, character-wise. -/
def jsToLower (s : String) : String := String.mk (s.toList.map Char.toLower)

/-- JS `s.slice(0, n)`, modelled on code points. -/
def jsTake (s : String) (n : Nat) : String := String.mk (s.toList.take n)

/-- JS string truthiness: `if (s)` for a string. -/
def jsTruthy (s : String) : Bool := s ≠ ""

/-!
## SessionIndex (`saveSession`, session.ts lines 596-631)

`saveSession` loads the persisted history, builds a fresh record, then either
replaces the entry with the same `session_id` in place or unshifts the fresh
record, and finally truncates to `MAX_SESSIONS`.  The list manipulation is
modelled by `saveSessionUpsert`; file I/O (load/persist) is outside the model.
-/

/-- Bound `MAX_SESSIONS = 5` (session.ts line 77). -/
def MAX_SESSIONS : Nat := 5

/-- A persisted `SavedSession` record. -/
structure SavedSession where
  session_id : String
  saved_at : String
  working_dir : String
  title : String
  deriving DecidableEq, Repr

/-- The pure core of `ClaudeSession.saveSession` (session.ts lines 611-623):
`findIndex` over the loaded list, in-place replacement when the id exists,
`unshift` otherwise, then `slice(0, MAX_SESSIONS)`. -/
def saveSessionUpsert (sessions : List SavedSession) (newSession : SavedSession) :
    List SavedSession :=
  match sessions.findIdx? (fun s => s.session_id == newSession.session_id) with
  | some existingIndex => (sessions.set existingIndex newSession).take MAX_SESSIONS
  | none => (newSession :: sessions).take MAX_SESSIONS

/-!
## ThinkingPolicy (`getThinkingLevel`, session.ts lines 41-56)

`THINKING_DEEP_KEYWORDS` and `THINKING_KEYWORDS` come from `config.ts`, which
is not among the given sources; the keyword lists are therefore parameters.
-/

/-- Function `getThinkingLevel` (session.ts lines 41-56): lowercase the message, return
50000 on a deep-tier keyword hit, else 10000 on a normal-tier hit, else 0. -/
def getThinkingLevel (deepKeywords normalKeywords : List String) (message : String) : Nat :=
  let msgLower := jsToLower message
  if deepKeywords.any (fun k => jsIncludes msgLower k) then 50000
  else if normalKeywords.any (fun k => jsIncludes msgLower k) then 10000
  else 0

/-!
## Streamed events and emissions (`sendMessageStreaming`, session.ts lines 172-580)
-/

/-- Token usage captured from a `result` event. -/
structure TokenUsage where
  input_tokens : Nat
  output_tokens : Nat
  deriving DecidableEq, Repr

/-- The fields of a tool invocation's `input` object that `session.ts` reads
(`toolInput.command`, `toolInput.file_path`); `""` models an absent field. -/
structure ToolInput where
  command : String := ""
  file_path : String := ""
  deriving DecidableEq, Repr

/-- A content block of an `assistant` event.  `toolUse`'s `id` is the
optional `tool_use` id (`""` when absent); a `text` block carries the
`Date.now()` value observed when the block is processed (used only by the
streaming throttle). -/
inductive Block where
  | thinking (text : String)
  | toolUse (name : String) (input : ToolInput) (id : String)
  | text (t : String) (now : Nat)
  | other (ty : String)
  deriving DecidableEq, Repr

/-- A content block of a `user` event (tool results).  `content` is the raw
result payload, handed only to the abstract `extractToolResultText` and
`summarizeToolOutput` collaborators, so a `String` stands in for it. -/
structure UBlock where
  type : String
  tool_use_id : String := ""
  is_error : Bool := false
  content : String := ""
  deriving DecidableEq, Repr

/-- A streamed SDK event, as discriminated by `session.ts`. -/
inductive Event where
  | assistant (blocks : List Block)
  | user (blocks : List UBlock)
  | result (usage : Option TokenUsage)
  | other (ty : String)
  deriving DecidableEq, Repr

/-- One iteration's input of the `for await` loop: the streamed event, its
`session_id` field (`""` when absent) and the value of the concurrently
writable `this.stopRequested` flag at the moment the event is dequeued. -/
structure Arrival where
  stopReq : Bool := false
  session_id : String := ""
  ev : Event
  deriving DecidableEq, Repr

/-- Status-callback kinds (the first argument of `statusCallback`). -/
inductive EmKind where
  | thinking
  | tool
  | toolDone
  | text
  | segEnd
  | done
  deriving DecidableEq, Repr

/-- One `statusCallback` invocation.  `awaited` is `true` when the code
`await`s the returned promise and `false` when it fire-and-forgets it with a
`.catch` logger.  `isError` records, for `toolDone` only, whether the display
was built with the error formatter. -/
structure Emission where
  kind : EmKind
  payload : String
  segId : Option Nat := none
  toolId : Option String := none
  awaited : Bool
  isError : Bool := false
  deriving DecidableEq, Repr

/-- The collaborators `session.ts` imports from modules that are not among
the given sources (`security.ts`, `config.ts`, the missing tail of
`formatting.ts`, `handlers/streaming.ts`), plus the in-repo display
formatters, whose output strings no claim depends on. -/
structure Collab where
  /-- Collaborator `checkCommandSafety` from `security.ts`: `(isSafe, reason)`. -/
  checkCommandSafety : String → Bool × String
  /-- Collaborator `isPathAllowed` from `security.ts`. -/
  isPathAllowed : String → Bool
  /-- Config `TEMP_PATHS` from `config.ts`. -/
  TEMP_PATHS : List String
  /-- Config `STREAMING_THROTTLE_MS` from `config.ts`. -/
  STREAMING_THROTTLE_MS : Nat
  /-- Collaborator `looksLikeError` from `formatting.ts` (not in the given sources). -/
  looksLikeError : String → Bool
  /-- Collaborator `extractToolResultText` from `formatting.ts` (not in the given sources). -/
  extractToolResultText : String → String
  /-- Collaborator `summarizeToolOutput` from `formatting.ts` (not in the given sources). -/
  summarizeToolOutput : String → String
  /-- Collaborator `formatToolStatus` from `formatting.ts`. -/
  formatToolStatus : String → ToolInput → String
  /-- Collaborator `formatToolErrorStatus` from `formatting.ts` (not in the given sources). -/
  formatToolErrorStatus : String → String
  /-- Collaborator `formatToolDoneStatus` from `formatting.ts`. -/
  formatToolDoneStatus : String → String
  /-- Whether `ctx` and `chatId` were supplied (`ctx && chatId`). -/
  hasCtxChat : Bool
  /-- Outcome of the `checkPendingAskUserRequests` retries
  (`handlers/streaming.ts`, not in the given sources): whether any of the
  up-to-three attempts reports buttons sent. -/
  askUserPending : Bool

/-- The mutable per-query state of the event loop: the local variables of
`sendMessageStreaming` (lines 263-272) plus the `this.` fields the loop
writes (`sessionId`, `currentTool`, `lastTool`, `lastUsage`). -/
structure LoopState where
  sessionId : Option String := none
  responseParts : List String := []
  currentSegmentId : Nat := 0
  currentSegmentText : String := ""
  lastTextUpdate : Nat := 0
  queryCompleted : Bool := false
  askUserTriggered : Bool := false
  pendingTools : List (String × String) := []
  currentTool : Option String := none
  lastTool : Option String := none
  lastUsage : Option TokenUsage := none
  deriving DecidableEq, Repr

/-- JS `Map.prototype.get` on the assoc-list model of `pendingTools`. -/
def mapGet (m : List (String × String)) (k : String) : Option String :=
  (m.find? (fun p => p.1 == k)).map Prod.snd

/-- JS `Map.prototype.set`: update the existing entry in place, else append. -/
def mapSet (m : List (String × String)) (k v : String) : List (String × String) :=
  if (m.find? (fun p => p.1 == k)).isSome then
    m.map (fun p => if p.1 == k then (k, v) else p)
  else m ++ [(k, v)]

/-- JS `Map.prototype.delete`. -/
def mapDelete (m : List (String × String)) (k : String) : List (String × String) :=
  m.filter (fun p => p.1 != k)

/-- Result of processing assistant content blocks: either normal continuation
or the propagating exception of a safety block (`throw new Error(...)`),
which carries the emissions already issued, the state reached, and the
thrown error message. -/
inductive BlockStep where
  | ok (ems : List Emission) (st : LoopState)
  | blocked (ems : List Emission) (st : LoopState) (msg : String)
  deriving DecidableEq, Repr

/-- Whether a `BlockStep` is the safety-block exception. -/
def BlockStep.isBlocked : BlockStep → Bool
  | .ok _ _ => false
  | .blocked _ _ _ => true

/-- The non-blocked tail of `tool_use` handling (session.ts lines 375-428):
segment close, tool display, pending-tool registration, `tool` status
emission (skipped and deregistered for the `mcp__ask-user` family), and the
ask-user button check. -/
def toolUseProceed (c : Collab) (st : LoopState) (toolName : String)
    (toolInput : ToolInput) (toolUseId : String) : List Emission × LoopState :=
  -- Segment ends when tool starts (fire-and-forget segment_end)
  let ems1 : List Emission :=
    if jsTruthy st.currentSegmentText then
      [{ kind := .segEnd, payload := st.currentSegmentText,
         segId := some st.currentSegmentId, awaited := false }]
    else []
  let st1 :=
    if jsTruthy st.currentSegmentText then
      { st with currentSegmentId := st.currentSegmentId + 1, currentSegmentText := "" }
    else st
  let toolDisplay := c.formatToolStatus toolName toolInput
  let st2 := { st1 with currentTool := some toolDisplay, lastTool := some toolDisplay }
  let st3 :=
    if jsTruthy toolUseId then
      { st2 with pendingTools := mapSet st2.pendingTools toolUseId toolDisplay }
    else st2
  let isAskUser := jsStartsWith toolName "mcp__ask-user"
  let ems2 : List Emission :=
    if ¬ isAskUser then
      [{ kind := .tool, payload := toolDisplay,
         toolId := if jsTruthy toolUseId then some toolUseId else none,
         awaited := false }]
    else []
  let st4 :=
    if ¬ isAskUser then st3
    else if jsTruthy toolUseId then
      { st3 with pendingTools := mapDelete st3.pendingTools toolUseId }
    else st3
  let st5 :=
    if isAskUser ∧ c.hasCtxChat ∧ c.askUserPending then
      { st4 with askUserTriggered := true }
    else st4
  (ems1 ++ ems2, st5)

/-- Processing of one `tool_use` block (session.ts lines 340-429): the two
safety checks (Bash command safety; file-path allowlist with the
temp-path/`.claude` exemption for `Read`), then the non-blocked tail. -/
def processToolUse (c : Collab) (st : LoopState) (toolName : String)
    (toolInput : ToolInput) (toolUseId : String) : BlockStep :=
  if toolName = "Bash" ∧ (c.checkCommandSafety toolInput.command).1 = false then
    .blocked [{ kind := .tool, payload := "BLOCKED: " ++ (c.checkCommandSafety toolInput.command).2,
                awaited := true }] st
      ("Unsafe command blocked: " ++ (c.checkCommandSafety toolInput.command).2)
  else
    let filePath := toolInput.file_path
    let isTmpRead := toolName = "Read" ∧
      (c.TEMP_PATHS.any (fun p => jsStartsWith filePath p) ∨ jsIncludes filePath "/.claude/")
    if (toolName = "Read" ∨ toolName = "Write" ∨ toolName = "Edit") ∧
        jsTruthy filePath ∧ ¬ isTmpRead ∧ c.isPathAllowed filePath = false then
      .blocked [{ kind := .tool, payload := "Access denied: " ++ filePath, awaited := true }] st
        ("File access blocked: " ++ filePath)
    else
      .ok (toolUseProceed c st toolName toolInput toolUseId).1
        (toolUseProceed c st toolName toolInput toolUseId).2

/-- Processing of one assistant content block (session.ts lines 327-459). -/
def processBlock (c : Collab) (st : LoopState) : Block → BlockStep
  | .thinking text =>
    if jsTruthy text then
      .ok [{ kind := .thinking, payload := text, awaited := false }] st
    else .ok [] st
  | .toolUse name input id => processToolUse c st name input id
  | .text t now =>
    let st1 := { st with responseParts := st.responseParts ++ [t],
                         currentSegmentText := st.currentSegmentText ++ t }
    if now - st.lastTextUpdate > c.STREAMING_THROTTLE_MS ∧ st1.currentSegmentText.length > 20 then
      .ok [{ kind := .text, payload := st1.currentSegmentText,
             segId := some st1.currentSegmentId, awaited := true }]
        { st1 with lastTextUpdate := now }
    else .ok [] st1
  | .other _ => .ok [] st

/-- Processing of the content-block list of one assistant event, propagating
the safety-block exception. -/
def processBlocks (c : Collab) (st : LoopState) : List Block → BlockStep
  | [] => .ok [] st
  | b :: bs =>
    match processBlock c st b with
    | .blocked ems st1 msg => .blocked ems st1 msg
    | .ok ems st1 =>
      match processBlocks c st1 bs with
      | .blocked ems2 st2 msg => .blocked (ems ++ ems2) st2 msg
      | .ok ems2 st2 => .ok (ems ++ ems2) st2

/-- Processing of one `tool_result` block of a `user` event (session.ts
lines 471-498): emit `tool_done` only for identifiers still registered in
`pendingTools`, removing the entry and classifying success/error. -/
def processUBlock (c : Collab) (st : LoopState) (b : UBlock) :
    List Emission × LoopState :=
  if b.type = "tool_result" ∧ jsTruthy b.tool_use_id then
    match mapGet st.pendingTools b.tool_use_id with
    | some toolDisplay =>
      let resultText := c.extractToolResultText b.content
      let isError := b.is_error || c.looksLikeError resultText
      let doneDisplay :=
        (if isError then c.formatToolErrorStatus toolDisplay
         else c.formatToolDoneStatus toolDisplay) ++ c.summarizeToolOutput b.content
      ([{ kind := .toolDone, payload := doneDisplay, toolId := some b.tool_use_id,
          awaited := false, isError := isError }],
       { st with pendingTools := mapDelete st.pendingTools b.tool_use_id })
    | none => ([], st)
  else ([], st)

/-- Processing of the block list of one `user` event. -/
def processUBlocks (c : Collab) (st : LoopState) : List UBlock → List Emission × LoopState
  | [] => ([], st)
  | b :: bs =>
    ((processUBlock c st b).1 ++ (processUBlocks c (processUBlock c st b).2 bs).1,
     (processUBlocks c (processUBlock c st b).2 bs).2)

/-- How one pass of the `for await` loop ended. -/
inductive LoopExit where
  | finished
  | stopBreak
  | askUserBreak
  | blocked (msg : String)
  deriving DecidableEq, Repr

/-- One event's handling inside the loop body (session.ts lines 312-518),
excluding the stop check and session-id capture done in `processEvents`. -/
def processEvent (c : Collab) (st : LoopState) : Event → BlockStep
  | .assistant blocks => processBlocks c st blocks
  | .user blocks =>
    .ok (processUBlocks c st blocks).1 (processUBlocks c st blocks).2
  | .result usage =>
    let st1 := { st with queryCompleted := true }
    .ok [] (match usage with
            | some u => { st1 with lastUsage := some u }
            | none => st1)
  | .other _ => .ok [] st

/-- The `for await` loop (session.ts lines 300-518): per event, first the
stop-request check (`break`), then session-id capture, then the event body;
an assistant event that set `askUserTriggered` breaks out of the loop. -/
def processEvents (c : Collab) (st : LoopState) :
    List Arrival → List Emission × LoopState × LoopExit
  | [] => ([], st, .finished)
  | a :: rest =>
    if a.stopReq then ([], st, .stopBreak)
    else
      let st0 :=
        if st.sessionId = none ∧ jsTruthy a.session_id then
          { st with sessionId := some a.session_id }
        else st
      match processEvent c st0 a.ev with
      | .blocked ems st1 msg => (ems, st1, .blocked msg)
      | .ok ems st1 =>
        if st1.askUserTriggered then (ems, st1, .askUserBreak)
        else
          (ems ++ (processEvents c st1 rest).1,
           (processEvents c st1 rest).2.1, (processEvents c st1 rest).2.2)

/-!
## SessionManager state, `stop`, and the full `sendMessageStreaming` pipeline
-/

/-- The `ClaudeSession` fields relevant to lifecycle and error reporting
(session.ts lines 80-95).  `hasAbortController` models
`this.abortController !== null`, `abortSignalled` that `abort()` was called
on the current controller, `queryStarted` that `this.queryStarted` is set,
and `lastActivity`/`lastErrorTime` hold the `Date.now()` value of the
corresponding `new Date()`. -/
structure SessionState where
  sessionId : Option String := none
  lastActivity : Option Nat := none
  queryStarted : Bool := false
  currentTool : Option String := none
  lastTool : Option String := none
  lastError : Option String := none
  lastErrorTime : Option Nat := none
  lastUsage : Option TokenUsage := none
  hasAbortController : Bool := false
  abortSignalled : Bool := false
  isQueryRunning : Bool := false
  stopRequested : Bool := false
  isProcessing : Bool := false
  wasInterruptedByNewMessage : Bool := false
  deriving DecidableEq, Repr

/-- The three return values of `ClaudeSession.stop` ("stopped", "pending",
`false`). -/
inductive StopResult where
  | stopped
  | pending
  | noneRunning
  deriving DecidableEq, Repr

/-- Method `ClaudeSession.stop` (session.ts lines 148-165). -/
def stop (s : SessionState) : StopResult × SessionState :=
  if s.isQueryRunning ∧ s.hasAbortController then
    (.stopped, { s with stopRequested := true, abortSignalled := true })
  else if s.isProcessing then
    (.pending, { s with stopRequested := true })
  else
    (.noneRunning, s)

/-- Decidable equality for `Except`, for evaluating concrete outcomes. -/
instance {ε α : Type} [DecidableEq ε] [DecidableEq α] : DecidableEq (Except ε α) := fun a b =>
  match a, b with
  | .ok x, .ok y =>
    if h : x = y then .isTrue (by rw [h]) else .isFalse (by intro hc; cases hc; exact h rfl)
  | .error x, .error y =>
    if h : x = y then .isTrue (by rw [h]) else .isFalse (by intro hc; cases hc; exact h rfl)
  | .ok _, .error _ => .isFalse (by intro hc; cases hc)
  | .error _, .ok _ => .isFalse (by intro hc; cases hc)

/-- The complete outcome of one `sendMessageStreaming` call: the ordered
`statusCallback` invocations, the returned string or thrown error, and the
session state afterwards. -/
structure SendOutput where
  emissions : List Emission
  ret : Except String String
  sess : SessionState
  deriving Repr

/-- The loop state at the top of `sendMessageStreaming` (lines 263-272),
seeded with the session id the call may resume. -/
def initLoopState (sess : SessionState) : LoopState :=
  { sessionId := sess.sessionId }

/-- The timeout notice (session.ts lines 567-568). -/
def timeoutNotice : String :=
  "⏱ Response timed out (a tool call may have stalled). Try rephrasing or asking me to skip web lookups."

/-- Result assembly (session.ts lines 553-579), reached when no error
propagates: the ask-user early return, the final-segment flush, the timeout
notice, and the `done` emission; returns the trailing emissions and the
string `sendMessageStreaming` returns. -/
def resultAssembly (stF : LoopState) (timedOut : Bool) : List Emission × String :=
  if stF.askUserTriggered then
    ([{ kind := .done, payload := "", awaited := true }], "[Waiting for user selection]")
  else
    let flushEms : List Emission :=
      if jsTruthy stF.currentSegmentText then
        [{ kind := .segEnd, payload := stF.currentSegmentText,
           segId := some stF.currentSegmentId, awaited := true }]
      else []
    if timedOut then
      let accumulatedText := String.join stF.responseParts
      let noticeSegId := stF.currentSegmentId + 1
      (flushEms ++
        [{ kind := .text, payload := timeoutNotice, segId := some noticeSegId, awaited := true },
         { kind := .segEnd, payload := timeoutNotice, segId := some noticeSegId, awaited := true },
         { kind := .done, payload := "", awaited := true }],
       if jsTruthy accumulatedText then accumulatedText ++ "\n\n" ++ timeoutNotice else timeoutNotice)
    else
      (flushEms ++ [{ kind := .done, payload := "", awaited := true }],
       if jsTruthy (String.join stF.responseParts) then String.join stF.responseParts
       else "No response from Claude.")

/-- Method `ClaudeSession.sendMessageStreaming` (session.ts lines 172-580) from the
pending-stop re-check onward.  Inputs beyond the event stream:

* `streamErr` — the error, if any, that the SDK generator itself raises
  (e.g. the abort error after the watchdog or `stop()` aborts the
  controller); `none` when the stream ends or is left without raising.
* `timedOut` — the flag the inactivity watchdog callback sets, read in the
  `catch` and in result assembly.
* `stopReqAtCatch` — the value of the concurrently writable
  `this.stopRequested` at the moment the `catch` classifies the error.
* `now` — `Date.now()` at finalization (for `lastActivity`/`lastErrorTime`).

The prompt-preparation work before line 247 (date prefix, option building)
performs no emissions and no relevant state changes and is omitted. -/
def sendMessageStreaming (c : Collab) (arrivals : List Arrival)
    (streamErr : Option String) (timedOut stopReqAtCatch : Bool) (now : Nat)
    (sess : SessionState) : SendOutput :=
  -- lines 247-254: pending-stop re-check
  if sess.stopRequested then
    { emissions := [], ret := .error "Query cancelled",
      sess := { sess with stopRequested := false } }
  else
    -- lines 256-261: fresh abort controller, running markers
    let sess1 := { sess with hasAbortController := true, abortSignalled := false,
                             isQueryRunning := true, stopRequested := false,
                             queryStarted := true, currentTool := none }
    -- the loop state is seeded with `this.sessionId`, unchanged by the
    -- running markers, so it is read off `sess` directly
    let ems := (processEvents c (initLoopState sess) arrivals).1
    let stF := (processEvents c (initLoopState sess) arrivals).2.1
    let ex := (processEvents c (initLoopState sess) arrivals).2.2
    -- the error propagating out of the try block, as `String(error)` sees it
    let thrown : Option String :=
      match ex with
      | .blocked msg => some ("Error: " ++ msg)
      | _ => streamErr
    -- lines 541-547: finally block
    let sess2 := { sess1 with sessionId := stF.sessionId, lastTool := stF.lastTool,
                              lastUsage := stF.lastUsage,
                              isQueryRunning := false, hasAbortController := false,
                              queryStarted := false, currentTool := none }
    -- lines 521-540: catch classification
    let suppressed : Bool :=
      match thrown with
      | none => true
      | some e =>
        (jsIncludes (jsToLower e) "cancel" || jsIncludes (jsToLower e) "abort") &&
        (stF.queryCompleted || stF.askUserTriggered || stopReqAtCatch || timedOut)
    match thrown, suppressed with
    | some e, false =>
      { emissions := ems, ret := .error e,
        sess := { sess2 with lastError := some (jsTake e 100), lastErrorTime := some now } }
    | _, _ =>
      -- lines 549-579: result assembly
      let sess3 := { sess2 with lastActivity := some now, lastError := none,
                                lastErrorTime := none }
      { emissions := ems ++ (resultAssembly stF timedOut).1,
        ret := .ok (resultAssembly stF timedOut).2, sess := sess3 }

/-- A sample persisted record (varying only the id and title). -/
def mkRec (id title : String) : SavedSession :=
  { session_id := id, saved_at := "2026-01-01", working_dir := "/home/w", title := title }

/-- Saving a sequence of captured sessions into an initially empty index:
left fold of the upsert. -/
def insertAll (rs : List SavedSession) : List SavedSession :=
  rs.foldl saveSessionUpsert []

/-- The segment ids carried by a list of emissions, in emission order. -/
def segIds (ems : List Emission) : List Nat := ems.filterMap (fun e => e.segId)

/-- The segment ids of the `segment_end` emissions, in emission order. -/
def endIds (ems : List Emission) : List Nat :=
  (ems.filter (fun e => e.kind == .segEnd)).filterMap (fun e => e.segId)

/-- Invariant of one processing step of the loop, from state `st` to state
`st2` while issuing `ems`: the segment counter only grows, issued segment ids
lie between the old and new counter and are non-decreasing, the
`segment_end` ids are exactly the counter values stepped over (one close per
increment), an emission at the new counter implies the current segment text
is nonempty, and segment text stays nonempty while the counter stands. -/
structure StepOK (st st2 : LoopState) (ems : List Emission) : Prop where
  sid_le : st.currentSegmentId ≤ st2.currentSegmentId
  ids_lb : ∀ i ∈ segIds ems, st.currentSegmentId ≤ i
  ids_ub : ∀ i ∈ segIds ems, i ≤ st2.currentSegmentId
  ids_sorted : (segIds ems).Sorted (· ≤ ·)
  ends_eq : endIds ems =
    List.range' st.currentSegmentId (st2.currentSegmentId - st.currentSegmentId)
  text_nonempty : st2.currentSegmentId ∈ segIds ems → st2.currentSegmentText ≠ ""
  seg_preserve : st.currentSegmentText ≠ "" → st2.currentSegmentId = st.currentSegmentId →
    st2.currentSegmentText ≠ ""

/-- Kind/await discipline of loop emissions: text is awaited; thinking,
tool_done and (mid-stream) segment_end are fire-and-forget; done never
occurs inside the loop; an awaited tool emission is a safety-block
announcement. -/
def EmsOK (ems : List Emission) : Prop := ∀ e ∈ ems,
  (e.kind = .text → e.awaited = true) ∧
  (e.kind = .thinking → e.awaited = false) ∧
  (e.kind = .toolDone → e.awaited = false) ∧
  (e.kind = .segEnd → e.awaited = false) ∧
  e.kind ≠ .done ∧
  (e.kind = .tool → e.awaited = true →
    ∃ r, e.payload = "BLOCKED: " ++ r ∨ e.payload = "Access denied: " ++ r)

/-- The emissions issued up to the end (or exception) of a block step. -/
def BlockStep.ems : BlockStep → List Emission
  | .ok e _ => e
  | .blocked e _ _ => e

/-- The loop state at the end (or exception) of a block step. -/
def BlockStep.stAfter : BlockStep → LoopState
  | .ok _ s => s
  | .blocked _ s _ => s

/-- Await discipline of one status-callback invocation: text and done are
awaited; thinking and tool_done are fire-and-forget; every fire-and-forget
invocation is a thinking, tool, tool_done or segment_end; an awaited tool
invocation is a safety-block announcement. -/
def AwaitSpec (e : Emission) : Prop :=
  (e.kind = .text → e.awaited = true) ∧
  (e.kind = .done → e.awaited = true) ∧
  (e.kind = .thinking → e.awaited = false) ∧
  (e.kind = .toolDone → e.awaited = false) ∧
  (e.awaited = false →
    e.kind = .thinking ∨ e.kind = .tool ∨ e.kind = .toolDone ∨ e.kind = .segEnd) ∧
  (e.kind = .tool → e.awaited = true →
    ∃ r, e.payload = "BLOCKED: " ++ r ∨ e.payload = "Access denied: " ++ r)

/-!
## Shared helper lemmas
-/

/-- Appending to a nonempty string stays nonempty. -/
lemma str_append_ne_empty {s : String} (t : String) (h : s ≠ "") : s ++ t ≠ "" := by
  intro hc
  apply h
  cases s with
  | mk d =>
    cases t with
    | mk e =>
      rw [String.ext_iff] at hc ⊢
      have : d ++ e = [] := hc
      simp at this
      exact this.1

/-- A string longer than 20 characters is nonempty. -/
lemma str_long_ne_empty {s : String} (h : 20 < s.length) : s ≠ "" := by
  intro hc; subst hc; simp at h

/-- Characterisation of `findIdx?` hits (the version in this toolchain threads a
start index): a hit is within bounds and satisfies the predicate. -/
lemma findIdx?_some_spec {α : Type} (p : α → Bool) :
    ∀ (l : List α) (j i : Nat), l.findIdx? p j = some i →
      j ≤ i ∧ i - j < l.length ∧ ∃ x, l.get? (i - j) = some x ∧ p x = true := by
  intro l
  induction l with
  | nil => intro j i h; simp [List.findIdx?] at h
  | cons a t ih =>
    intro j i h
    rw [List.findIdx?_cons] at h
    split at h
    · cases h
      refine ⟨Nat.le_refl _, by simp, a, ?_, by assumption⟩
      simp
    · obtain ⟨hji, hlen, x, hx, hpx⟩ := ih (j + 1) i h
      refine ⟨by omega, by simp; omega, x, ?_, hpx⟩
      have hij : i - j = (i - (j + 1)) + 1 := by omega
      rw [hij]
      simpa using hx

/-- Looking up a key just deleted: `mapGet` after `mapDelete` of the same key is `none`. -/
lemma mapGet_mapDelete (m : List (String × String)) (k : String) :
    mapGet (mapDelete m k) k = none := by
  induction m with
  | nil => rfl
  | cons p t ih =>
    by_cases h : p.1 = k
    · simp only [mapDelete, List.filter] at *
      have hne : (p.1 != k) = false := by simp [h]
      rw [hne]
      exact ih
    · simp only [mapDelete, List.filter] at *
      have hne : (p.1 != k) = true := by simpa using h
      rw [hne]
      simp only [mapGet, List.find?] at *
      have : (p.1 == k) = false := by simpa using h
      rw [this]
      exact ih

/-!
## C6 — ThinkingPolicy
-/

/-- C6: the thinking-level function is pure and total on message strings; a
message containing a deep-tier keyword yields 50000 regardless of normal-tier
hits (deep is checked first), a message containing only a normal-tier keyword
yields 10000, a message containing neither yields 0, and matching is a
substring test on the lowercased message (so the result is invariant under
message case). -/
theorem getThinkingLevel_tiers (deepKeywords normalKeywords : List String)
    (message other : String) :
    ((∃ k ∈ deepKeywords, jsIncludes (jsToLower message) k = true) →
      getThinkingLevel deepKeywords normalKeywords message = 50000) ∧
    ((∀ k ∈ deepKeywords, jsIncludes (jsToLower message) k = false) →
      (∃ k ∈ normalKeywords, jsIncludes (jsToLower message) k = true) →
      getThinkingLevel deepKeywords normalKeywords message = 10000) ∧
    ((∀ k ∈ deepKeywords, jsIncludes (jsToLower message) k = false) →
      (∀ k ∈ normalKeywords, jsIncludes (jsToLower message) k = false) →
      getThinkingLevel deepKeywords normalKeywords message = 0) ∧
    (jsToLower message = jsToLower other →
      getThinkingLevel deepKeywords normalKeywords message =
        getThinkingLevel deepKeywords normalKeywords other) := by
  refine ⟨fun h => ?_, fun hd hn => ?_, fun hd hn => ?_, fun h => ?_⟩
  · have hd : deepKeywords.any (fun k => jsIncludes (jsToLower message) k) = true :=
      List.any_eq_true.mpr h
    simp [getThinkingLevel, hd]
  · have hd2 : deepKeywords.any (fun k => jsIncludes (jsToLower message) k) = false := by
      simp only [List.any_eq_false]
      intro k hk
      simp [hd k hk]
    have hn2 : normalKeywords.any (fun k => jsIncludes (jsToLower message) k) = true :=
      List.any_eq_true.mpr hn
    simp [getThinkingLevel, hd2, hn2]
  · have hd2 : deepKeywords.any (fun k => jsIncludes (jsToLower message) k) = false := by
      simp only [List.any_eq_false]
      intro k hk
      simp [hd k hk]
    have hn2 : normalKeywords.any (fun k => jsIncludes (jsToLower message) k) = false := by
      simp only [List.any_eq_false]
      intro k hk
      simp [hn k hk]
    simp [getThinkingLevel, hd2, hn2]
  · simp only [getThinkingLevel, h]

/-- Witness for C6 at concrete inputs, matching the spec scenarios. -/
theorem getThinkingLevel_tiers_witness :
    getThinkingLevel ["deeply"] ["think"] "Explain DEEPLY the halting problem" = 50000 ∧
    getThinkingLevel ["deeply"] ["think"] "please think hard" = 10000 ∧
    getThinkingLevel ["deeply"] ["think"] "hi" = 0 ∧
    getThinkingLevel ["deeply"] ["think"] "explain deeply and think hard" = 50000 :=
  ⟨(getThinkingLevel_tiers ["deeply"] ["think"] _ "").1 ⟨"deeply", by decide, by decide⟩,
   (getThinkingLevel_tiers ["deeply"] ["think"] _ "").2.1 (by decide) ⟨"think", by decide, by decide⟩,
   (getThinkingLevel_tiers ["deeply"] ["think"] _ "").2.2.1 (by decide) (by decide),
   (getThinkingLevel_tiers ["deeply"] ["think"] _ "").1 ⟨"deeply", by decide, by decide⟩⟩

/-!
## C2 / C7 — SessionIndex upsert and bound
-/

/-- C2 counterexample: upserting a record whose id already exists replaces it
at its current position (index 1 here), not at the front — refuting the claim
that the updated record is always placed at the front and that
position-preserving replacement never occurs. -/
theorem saveSession_front_counterexample :
    saveSessionUpsert [mkRec "a" "A", mkRec "b" "B"] (mkRec "b" "B2") =
      [mkRec "a" "A", mkRec "b" "B2"] ∧
    (saveSessionUpsert [mkRec "a" "A", mkRec "b" "B"] (mkRec "b" "B2")).head? ≠
      some (mkRec "b" "B2") := by
  constructor
  · rfl
  · decide

/-- Fresh-id upsert unshifts and truncates (shared helper). -/
lemma saveSessionUpsert_fresh (sessions : List SavedSession) (ns : SavedSession)
    (h : ∀ s ∈ sessions, (s.session_id == ns.session_id) = false) :
    saveSessionUpsert sessions ns = (ns :: sessions).take MAX_SESSIONS := by
  have hf : sessions.findIdx? (fun s => s.session_id == ns.session_id) = none :=
    List.findIdx?_eq_none_iff.mpr h
  simp [saveSessionUpsert, hf]

/-- C2 (amended): a record whose id is fresh is unshifted to the front and the
list truncated to the bound; a record whose id already exists is replaced in
place, preserving its position (when the stored list is within the bound, the
updated record sits exactly at the index where the old record was). -/
theorem saveSession_upsert_placement (sessions : List SavedSession) (ns : SavedSession)
    (i : Nat) :
    ((∀ s ∈ sessions, (s.session_id == ns.session_id) = false) →
      saveSessionUpsert sessions ns = (ns :: sessions).take MAX_SESSIONS) ∧
    (sessions.findIdx? (fun s => s.session_id == ns.session_id) = some i →
      saveSessionUpsert sessions ns = (sessions.set i ns).take MAX_SESSIONS ∧
      (sessions.length ≤ MAX_SESSIONS →
        saveSessionUpsert sessions ns = sessions.set i ns ∧
        (saveSessionUpsert sessions ns).get? i = some ns)) := by
  constructor
  · exact saveSessionUpsert_fresh sessions ns
  · intro hf
    have heq : saveSessionUpsert sessions ns = (sessions.set i ns).take MAX_SESSIONS := by
      simp [saveSessionUpsert, hf]
    refine ⟨heq, fun hlen => ?_⟩
    have hi : i < sessions.length := by
      have := findIdx?_some_spec _ sessions 0 i hf
      omega
    have htake : (sessions.set i ns).take MAX_SESSIONS = sessions.set i ns :=
      List.take_of_length_le (by simpa using hlen)
    refine ⟨heq.trans htake, ?_⟩
    rw [heq, htake]
    exact List.get?_set_eq_of_lt ns hi

/-- Witness for C2's amended claim at concrete inputs. -/
theorem saveSession_upsert_placement_witness :
    saveSessionUpsert [mkRec "a" "A", mkRec "b" "B"] (mkRec "c" "C") =
      [mkRec "c" "C", mkRec "a" "A", mkRec "b" "B"] ∧
    (saveSessionUpsert [mkRec "a" "A", mkRec "b" "B"] (mkRec "b" "B2")).get? 1 =
      some (mkRec "b" "B2") := by
  constructor
  · have h := (saveSession_upsert_placement [mkRec "a" "A", mkRec "b" "B"] (mkRec "c" "C") 0).1
      (by decide)
    rw [h]
    rfl
  · have h := (saveSession_upsert_placement [mkRec "a" "A", mkRec "b" "B"] (mkRec "b" "B2") 1).2
      (by decide)
    exact ((h.2 (by decide)).2)

/-- Truncation absorbs an inner truncation of the appended tail. -/
lemma take_append_take {α : Type} (l₁ l₂ : List α) (n : Nat) :
    (l₁ ++ l₂.take n).take n = (l₁ ++ l₂).take n := by
  rw [List.take_append_eq_append_take, List.take_append_eq_append_take, List.take_take]
  simp [Nat.min_comm]

/-- Folding fresh-id upserts over a bounded accumulator keeps the reversed
prefix, truncated to the bound. -/
lemma foldl_upsert_fresh :
    ∀ (rs : List SavedSession) (acc : List SavedSession),
      (rs.map (fun r => r.session_id)).Nodup →
      (∀ r ∈ rs, ∀ s ∈ acc, (s.session_id == r.session_id) = false) →
      acc.length ≤ MAX_SESSIONS →
      rs.foldl saveSessionUpsert acc = (rs.reverse ++ acc).take MAX_SESSIONS := by
  intro rs
  induction rs with
  | nil =>
    intro acc _ _ hlen
    simpa using (List.take_of_length_le hlen).symm
  | cons r rs ih =>
    intro acc hnd hfresh hlen
    have hstep : saveSessionUpsert acc r = (r :: acc).take MAX_SESSIONS :=
      saveSessionUpsert_fresh acc r (hfresh r (by simp))
    have hparts := List.nodup_cons.mp
      (show (r.session_id :: rs.map (fun r => r.session_id)).Nodup by simpa using hnd)
    have hnd2 : (rs.map (fun r => r.session_id)).Nodup := hparts.2
    have hhead : r.session_id ∉ rs.map (fun r => r.session_id) := hparts.1
    have hfresh2 : ∀ r2 ∈ rs, ∀ s ∈ (r :: acc).take MAX_SESSIONS,
        (s.session_id == r2.session_id) = false := by
      intro r2 hr2 s hs
      have hs2 : s ∈ r :: acc := List.mem_of_mem_take hs
      rcases List.mem_cons.mp hs2 with hsr | hsacc
      · subst hsr
        by_contra hc
        have hb : (s.session_id == r2.session_id) = true := by
          cases h : (s.session_id == r2.session_id) with
          | true => rfl
          | false => exact absurd h hc
        have : s.session_id = r2.session_id := by simpa using hb
        exact hhead (by rw [this]; exact List.mem_map_of_mem _ hr2)
      · exact hfresh r2 (by simp [hr2]) s hsacc
    have hlen2 : ((r :: acc).take MAX_SESSIONS).length ≤ MAX_SESSIONS := by
      simp [List.length_take]
    calc (r :: rs).foldl saveSessionUpsert acc
        = rs.foldl saveSessionUpsert ((r :: acc).take MAX_SESSIONS) := by
          simp [List.foldl_cons, hstep]
      _ = (rs.reverse ++ (r :: acc).take MAX_SESSIONS).take MAX_SESSIONS :=
          ih _ hnd2 hfresh2 hlen2
      _ = (rs.reverse ++ (r :: acc)).take MAX_SESSIONS := take_append_take _ _ _
      _ = ((r :: rs).reverse ++ acc).take MAX_SESSIONS := by
          simp

/-- C7: after inserting `MAX_SESSIONS + k` records with pairwise-distinct ids
into an empty index, exactly `MAX_SESSIONS` records remain, namely the last
`MAX_SESSIONS` inserted (all but the `k` oldest), in most-recent-first order,
and the persisted ids are pairwise distinct. -/
theorem sessionIndex_bound (rs : List SavedSession) (k : Nat)
    (hnd : (rs.map (fun r => r.session_id)).Nodup)
    (hlen : rs.length = MAX_SESSIONS + k) :
    insertAll rs = (rs.drop k).reverse ∧
    (insertAll rs).length = MAX_SESSIONS ∧
    ((insertAll rs).map (fun r => r.session_id)).Nodup := by
  have hmain : insertAll rs = rs.reverse.take MAX_SESSIONS := by
    have := foldl_upsert_fresh rs [] hnd (by simp) (by simp [MAX_SESSIONS])
    simpa [insertAll] using this
  have hdrop : (rs.drop k).reverse = rs.reverse.take MAX_SESSIONS := by
    rw [List.reverse_drop, hlen]
    congr 1
    omega
  refine ⟨hmain.trans hdrop.symm, ?_, ?_⟩
  · rw [hmain]
    simp [List.length_take, hlen, MAX_SESSIONS]
  · rw [hmain.trans hdrop.symm]
    rw [List.map_reverse, List.nodup_reverse, List.map_drop]
    exact hnd.sublist (List.drop_sublist k _)

/-- Witness for C7 at a concrete input (`k = 2`, seven distinct ids). -/
theorem sessionIndex_bound_witness :
    insertAll [mkRec "s1" "", mkRec "s2" "", mkRec "s3" "", mkRec "s4" "",
               mkRec "s5" "", mkRec "s6" "", mkRec "s7" ""] =
      [mkRec "s7" "", mkRec "s6" "", mkRec "s5" "", mkRec "s4" "", mkRec "s3" ""] ∧
    (insertAll [mkRec "s1" "", mkRec "s2" "", mkRec "s3" "", mkRec "s4" "",
                mkRec "s5" "", mkRec "s6" "", mkRec "s7" ""]).length = MAX_SESSIONS := by
  have h := sessionIndex_bound
    [mkRec "s1" "", mkRec "s2" "", mkRec "s3" "", mkRec "s4" "",
     mkRec "s5" "", mkRec "s6" "", mkRec "s7" ""] 2 (by decide) (by decide)
  exact ⟨by rw [h.1]; rfl, h.2.1⟩

/-!
## C10 — Read exemption from the path allowlist
-/

/-- C10: a `Read` invocation whose file path starts with a configured temp
path or contains `/.claude/` is never blocked, whatever `isPathAllowed` says;
the exemption never applies to `Write` or `Edit`, which are blocked for every
(nonempty) path the allowlist rejects.  (An invocation with no `file_path`
skips the check entirely; "path" here is the nonempty extracted string.) -/
theorem read_tmp_exemption (c : Collab) (st : LoopState) (input : ToolInput)
    (id name : String) :
    ((c.TEMP_PATHS.any (fun p => jsStartsWith input.file_path p) = true ∨
        jsIncludes input.file_path "/.claude/" = true) →
      (processToolUse c st "Read" input id).isBlocked = false) ∧
    ((name = "Write" ∨ name = "Edit") → input.file_path ≠ "" →
      c.isPathAllowed input.file_path = false →
      processToolUse c st name input id =
        .blocked [{ kind := .tool, payload := "Access denied: " ++ input.file_path,
                    awaited := true }] st
          ("File access blocked: " ++ input.file_path)) := by
  constructor
  · intro h
    have hbash : ¬ (("Read" : String) = "Bash" ∧ (c.checkCommandSafety input.command).1 = false) := by
      intro hc
      exact absurd hc.1 (by decide)
    have htmp : ("Read" : String) = "Read" ∧
        (c.TEMP_PATHS.any (fun p => jsStartsWith input.file_path p) ∨
          jsIncludes input.file_path "/.claude/") := by
      refine ⟨rfl, ?_⟩
      rcases h with h | h
      · exact Or.inl (by simp [h])
      · exact Or.inr (by simp [h])
    have hfile : ¬ ((("Read" : String) = "Read" ∨ ("Read" : String) = "Write" ∨
        ("Read" : String) = "Edit") ∧ jsTruthy input.file_path ∧
        ¬ (("Read" : String) = "Read" ∧
          (c.TEMP_PATHS.any (fun p => jsStartsWith input.file_path p) ∨
            jsIncludes input.file_path "/.claude/")) ∧
        c.isPathAllowed input.file_path = false) := by
      intro hc
      exact hc.2.2.1 htmp
    unfold processToolUse
    rw [if_neg hbash, if_neg hfile]
    rfl
  · intro hname hfp hallow
    have hne : name ≠ "Read" ∧ name ≠ "Bash" := by
      rcases hname with h | h <;> subst h <;> exact ⟨by decide, by decide⟩
    have hbash : ¬ (name = "Bash" ∧ (c.checkCommandSafety input.command).1 = false) := by
      intro hc
      exact hne.2 hc.1
    have hfile : (name = "Read" ∨ name = "Write" ∨ name = "Edit") ∧
        jsTruthy input.file_path ∧
        ¬ (name = "Read" ∧
          (c.TEMP_PATHS.any (fun p => jsStartsWith input.file_path p) ∨
            jsIncludes input.file_path "/.claude/")) ∧
        c.isPathAllowed input.file_path = false := by
      refine ⟨Or.inr hname, ?_, ?_, hallow⟩
      · simp [jsTruthy, hfp]
      · intro hc
        exact hne.1 hc.1
    unfold processToolUse
    rw [if_neg hbash, if_pos hfile]

/-- Witness for C10: concrete collaborators that reject every path still let
`Read` through on a temp path and on a `.claude` path, and block `Write`. -/
theorem read_tmp_exemption_witness :
    (processToolUse
        { checkCommandSafety := fun _ => (true, ""), isPathAllowed := fun _ => false,
          TEMP_PATHS := ["/tmp"], STREAMING_THROTTLE_MS := 500,
          looksLikeError := fun _ => false, extractToolResultText := fun s => s,
          summarizeToolOutput := fun _ => "", formatToolStatus := fun n _ => n,
          formatToolErrorStatus := fun s => s, formatToolDoneStatus := fun s => s,
          hasCtxChat := false, askUserPending := false }
        {} "Read" { file_path := "/etc/x/.claude/settings.json" } "t1").isBlocked = false ∧
    (processToolUse
        { checkCommandSafety := fun _ => (true, ""), isPathAllowed := fun _ => false,
          TEMP_PATHS := ["/tmp"], STREAMING_THROTTLE_MS := 500,
          looksLikeError := fun _ => false, extractToolResultText := fun s => s,
          summarizeToolOutput := fun _ => "", formatToolStatus := fun n _ => n,
          formatToolErrorStatus := fun s => s, formatToolDoneStatus := fun s => s,
          hasCtxChat := false, askUserPending := false }
        {} "Write" { file_path := "/tmp/notes.txt" } "t1") =
      .blocked [{ kind := .tool, payload := "Access denied: /tmp/notes.txt", awaited := true }]
        {} "File access blocked: /tmp/notes.txt" :=
  ⟨(read_tmp_exemption _ {} { file_path := "/etc/x/.claude/settings.json" } "t1" "Write").1
      (Or.inr (by decide)),
   (read_tmp_exemption _ {} { file_path := "/tmp/notes.txt" } "t1" "Write").2
      (Or.inl rfl) (by decide) rfl⟩

/-!
## C8 — tool-result handling
-/

/-- C8: for a `tool_result` block, a `tool_done` emission is produced iff the
result identifier is registered in the pending-tool table (a table built only
from truthy invocation ids, hence the well-formedness hypothesis); when found
the entry is removed and the emission is error-annotated exactly when the
explicit error flag is set or the heuristic matches the extracted result
text; an unregistered identifier produces no emission. -/
theorem toolResult_pending_lookup (c : Collab) (st : LoopState) (b : UBlock)
    (htype : b.type = "tool_result")
    (hwf : mapGet st.pendingTools "" = none) :
    ((processUBlock c st b).1 ≠ [] ↔ (mapGet st.pendingTools b.tool_use_id).isSome) ∧
    (∀ d, mapGet st.pendingTools b.tool_use_id = some d →
      processUBlock c st b =
        ([{ kind := .toolDone,
            payload := (if (b.is_error || c.looksLikeError (c.extractToolResultText b.content)) then
                c.formatToolErrorStatus d else c.formatToolDoneStatus d) ++
              c.summarizeToolOutput b.content,
            toolId := some b.tool_use_id, awaited := false,
            isError := (b.is_error || c.looksLikeError (c.extractToolResultText b.content)) }],
         { st with pendingTools := mapDelete st.pendingTools b.tool_use_id }) ∧
      mapGet (processUBlock c st b).2.pendingTools b.tool_use_id = none) ∧
    (mapGet st.pendingTools b.tool_use_id = none → processUBlock c st b = ([], st)) := by
  by_cases hid : b.tool_use_id = ""
  · have hnone : mapGet st.pendingTools b.tool_use_id = none := by rw [hid]; exact hwf
    have hskip : processUBlock c st b = ([], st) := by
      simp [processUBlock, hid, jsTruthy]
    refine ⟨?_, ?_, fun _ => hskip⟩
    · rw [hskip, hnone]
      simp
    · intro d hd
      rw [hnone] at hd
      cases hd
  · have hcond : b.type = "tool_result" ∧ jsTruthy b.tool_use_id := by
      exact ⟨htype, by simp [jsTruthy, hid]⟩
    constructor
    · cases hget : mapGet st.pendingTools b.tool_use_id with
      | none => simp [processUBlock, hcond, hget]
      | some d => simp [processUBlock, hcond, hget]
    · constructor
      · intro d hd
        have hmain : processUBlock c st b =
            ([{ kind := .toolDone,
                payload := (if (b.is_error || c.looksLikeError (c.extractToolResultText b.content)) then
                    c.formatToolErrorStatus d else c.formatToolDoneStatus d) ++
                  c.summarizeToolOutput b.content,
                toolId := some b.tool_use_id, awaited := false,
                isError := (b.is_error || c.looksLikeError (c.extractToolResultText b.content)) }],
             { st with pendingTools := mapDelete st.pendingTools b.tool_use_id }) := by
          simp only [processUBlock, if_pos hcond, hd]
        refine ⟨hmain, ?_⟩
        rw [hmain]
        exact mapGet_mapDelete st.pendingTools b.tool_use_id
      · intro hnone
        simp [processUBlock, hcond, hnone]

/-- Witness for C8: with one registered tool id, a matching result emits a
removal plus `tool_done`, and an unregistered (ask-user style) id emits
nothing. -/
theorem toolResult_pending_lookup_witness :
    (processUBlock
        { checkCommandSafety := fun _ => (true, ""), isPathAllowed := fun _ => true,
          TEMP_PATHS := [], STREAMING_THROTTLE_MS := 500,
          looksLikeError := fun s => jsIncludes s "error",
          extractToolResultText := fun s => s,
          summarizeToolOutput := fun _ => "", formatToolStatus := fun n _ => n,
          formatToolErrorStatus := fun s => "ERR " ++ s,
          formatToolDoneStatus := fun s => "OK " ++ s,
          hasCtxChat := false, askUserPending := false }
        { pendingTools := [("t1", "Bash")] }
        { type := "tool_result", tool_use_id := "t1", content := "fine" }).1 ≠ [] ∧
    (processUBlock
        { checkCommandSafety := fun _ => (true, ""), isPathAllowed := fun _ => true,
          TEMP_PATHS := [], STREAMING_THROTTLE_MS := 500,
          looksLikeError := fun s => jsIncludes s "error",
          extractToolResultText := fun s => s,
          summarizeToolOutput := fun _ => "", formatToolStatus := fun n _ => n,
          formatToolErrorStatus := fun s => "ERR " ++ s,
          formatToolDoneStatus := fun s => "OK " ++ s,
          hasCtxChat := false, askUserPending := false }
        { pendingTools := [("t1", "Bash")] }
        { type := "tool_result", tool_use_id := "ask7", content := "fine" }) =
      ([], { pendingTools := [("t1", "Bash")] }) :=
  ⟨(toolResult_pending_lookup _ { pendingTools := [("t1", "Bash")] }
      { type := "tool_result", tool_use_id := "t1", content := "fine" } rfl rfl).1.mpr
      (by decide),
   (toolResult_pending_lookup _ { pendingTools := [("t1", "Bash")] }
      { type := "tool_result", tool_use_id := "ask7", content := "fine" } rfl rfl).2.2
      (by decide)⟩

/-!
## C1 — stop tri-state and its observation
-/

/-- C1: `stop` is a tri-state function of the lifecycle state — with a query
running and a cancellation token present it flags the stop, signals the
token and returns `stopped`; in the processing phase with no token it flags
the stop and returns `pending`, and the subsequent send observes the flag,
clears it, and fails with "Query cancelled" without opening the stream or
emitting anything; with nothing running it returns `false`; and inside the
event loop, once the stop flag is observed no further emissions (tool, text
or otherwise) are produced. -/
theorem stop_tristate (s1 s2 s3 sess : SessionState) (c : Collab)
    (arrivals : List Arrival) (streamErr : Option String) (timedOut src : Bool)
    (now : Nat) (a : Arrival) (rest : List Arrival) (st : LoopState) :
    (s1.isQueryRunning = true → s1.hasAbortController = true →
      stop s1 = (.stopped, { s1 with stopRequested := true, abortSignalled := true })) ∧
    (¬ (s2.isQueryRunning = true ∧ s2.hasAbortController = true) → s2.isProcessing = true →
      stop s2 = (.pending, { s2 with stopRequested := true })) ∧
    (¬ (s3.isQueryRunning = true ∧ s3.hasAbortController = true) → s3.isProcessing = false →
      stop s3 = (.noneRunning, s3)) ∧
    (sess.stopRequested = true →
      sendMessageStreaming c arrivals streamErr timedOut src now sess =
        { emissions := [], ret := .error "Query cancelled",
          sess := { sess with stopRequested := false } }) ∧
    (a.stopReq = true → processEvents c st (a :: rest) = ([], st, .stopBreak)) := by
  refine ⟨fun h1 h2 => ?_, fun hn hp => ?_, fun hn hp => ?_, fun h => ?_, fun h => ?_⟩
  · unfold stop
    rw [if_pos ⟨h1, h2⟩]
  · unfold stop
    rw [if_neg hn, if_pos hp]
  · unfold stop
    rw [if_neg hn, if_neg (by simp [hp])]
  · unfold sendMessageStreaming
    rw [if_pos h]
  · simp only [processEvents]
    rw [if_pos h]

/-- Witness for C1 at concrete states and inputs. -/
theorem stop_tristate_witness :
    stop { isQueryRunning := true, hasAbortController := true } =
      (.stopped, { isQueryRunning := true, hasAbortController := true,
                   stopRequested := true, abortSignalled := true }) ∧
    stop { isProcessing := true } = (.pending, { isProcessing := true, stopRequested := true }) ∧
    stop {} = (.noneRunning, {}) ∧
    sendMessageStreaming
        { checkCommandSafety := fun _ => (true, ""), isPathAllowed := fun _ => true,
          TEMP_PATHS := [], STREAMING_THROTTLE_MS := 500,
          looksLikeError := fun _ => false, extractToolResultText := fun s => s,
          summarizeToolOutput := fun _ => "", formatToolStatus := fun n _ => n,
          formatToolErrorStatus := fun s => s, formatToolDoneStatus := fun s => s,
          hasCtxChat := false, askUserPending := false }
        [{ ev := .assistant [.text "hello" 0] }] none false false 5
        { stopRequested := true } =
      { emissions := [], ret := .error "Query cancelled", sess := {} } ∧
    processEvents
        { checkCommandSafety := fun _ => (true, ""), isPathAllowed := fun _ => true,
          TEMP_PATHS := [], STREAMING_THROTTLE_MS := 500,
          looksLikeError := fun _ => false, extractToolResultText := fun s => s,
          summarizeToolOutput := fun _ => "", formatToolStatus := fun n _ => n,
          formatToolErrorStatus := fun s => s, formatToolDoneStatus := fun s => s,
          hasCtxChat := false, askUserPending := false }
        {} [{ stopReq := true, ev := .assistant [.text "more" 0] }] = ([], {}, .stopBreak) := by
  have h := stop_tristate { isQueryRunning := true, hasAbortController := true }
    { isProcessing := true } {}
    { stopRequested := true }
    { checkCommandSafety := fun _ => (true, ""), isPathAllowed := fun _ => true,
      TEMP_PATHS := [], STREAMING_THROTTLE_MS := 500,
      looksLikeError := fun _ => false, extractToolResultText := fun s => s,
      summarizeToolOutput := fun _ => "", formatToolStatus := fun n _ => n,
      formatToolErrorStatus := fun s => s, formatToolDoneStatus := fun s => s,
      hasCtxChat := false, askUserPending := false }
    [{ ev := .assistant [.text "hello" 0] }] none false false 5
    { stopReq := true, ev := .assistant [.text "more" 0] } [] {}
  exact ⟨h.1 rfl rfl, h.2.1 (by simp) rfl, h.2.2.1 (by simp) rfl,
         h.2.2.2.1 rfl, h.2.2.2.2 rfl⟩

/-!
## C3 — safety blocks and the error fields
-/

/-- A blocking failure short-circuits the event loop: whatever events remain
are never consumed. -/
lemma processEvents_blocked_append (c : Collab) (bs : List Arrival) :
    ∀ (as : List Arrival) (st : LoopState) (m : String),
      (processEvents c st as).2.2 = .blocked m →
      processEvents c st (as ++ bs) = processEvents c st as := by
  intro as
  induction as with
  | nil =>
    intro st m h
    simp [processEvents] at h
  | cons a rest ih =>
    intro st m h
    by_cases hstop : a.stopReq = true
    · simp only [processEvents, if_pos hstop] at h
      cases h
    · simp only [List.cons_append, processEvents, if_neg hstop] at h ⊢
      cases hpe : processEvent c
          (if st.sessionId = none ∧ jsTruthy a.session_id = true then
            { st with sessionId := some a.session_id } else st) a.ev with
      | blocked ems st1 msg => simp only [hpe]
      | ok ems st1 =>
        simp only [hpe] at h ⊢
        by_cases hask : st1.askUserTriggered = true
        · simp only [if_pos hask] at h
          cases h
        · simp only [if_neg hask, List.append_eq] at h ⊢
          rw [ih st1 m h]

/-- C3 counterexample: on a concrete run where a Bash command fails the
safety check, the send call ends in error and the Session's last-error
fields ARE set — refuting the claim that a blocking failure leaves
`lastError`/`lastErrorTime` unset. -/
theorem blocked_sets_lastError_counterexample :
    (sendMessageStreaming
        { checkCommandSafety := fun _ => (false, "dangerous"), isPathAllowed := fun _ => true,
          TEMP_PATHS := [], STREAMING_THROTTLE_MS := 500,
          looksLikeError := fun _ => false, extractToolResultText := fun s => s,
          summarizeToolOutput := fun _ => "", formatToolStatus := fun n _ => n,
          formatToolErrorStatus := fun s => s, formatToolDoneStatus := fun s => s,
          hasCtxChat := false, askUserPending := false }
        [{ ev := .assistant [.toolUse "Bash" { command := "rm -rf /" } "t1"] }]
        none false false 7 {}).sess.lastError =
      some "Error: Unsafe command blocked: dangerous" ∧
    (sendMessageStreaming
        { checkCommandSafety := fun _ => (false, "dangerous"), isPathAllowed := fun _ => true,
          TEMP_PATHS := [], STREAMING_THROTTLE_MS := 500,
          looksLikeError := fun _ => false, extractToolResultText := fun s => s,
          summarizeToolOutput := fun _ => "", formatToolStatus := fun n _ => n,
          formatToolErrorStatus := fun s => s, formatToolDoneStatus := fun s => s,
          hasCtxChat := false, askUserPending := false }
        [{ ev := .assistant [.toolUse "Bash" { command := "rm -rf /" } "t1"] }]
        none false false 7 {}).sess.lastErrorTime = some 7 := by
  constructor
  · rfl
  · rfl

/-- C3 (amended): a tool invocation failing a safety check aborts the query
through a synchronously raised blocking failure — remaining events are never
consumed and the call ends in error — and the Session's last-error fields
ARE set by this failure (to the truncated error string and the current
time), since the blocked error matches no cancellation pattern. -/
theorem blocked_aborts_and_sets_lastError (c : Collab) (arrivals suffix : List Arrival)
    (ems : List Emission) (stF : LoopState) (msg : String)
    (timedOut src : Bool) (now : Nat) (sess : SessionState)
    (hstop : sess.stopRequested = false)
    (hrun : processEvents c (initLoopState sess) arrivals = (ems, stF, .blocked msg))
    (hnc : jsIncludes (jsToLower ("Error: " ++ msg)) "cancel" = false)
    (hna : jsIncludes (jsToLower ("Error: " ++ msg)) "abort" = false) :
    processEvents c (initLoopState sess) (arrivals ++ suffix) =
      processEvents c (initLoopState sess) arrivals ∧
    (sendMessageStreaming c arrivals none timedOut src now sess).ret =
      .error ("Error: " ++ msg) ∧
    (sendMessageStreaming c arrivals none timedOut src now sess).emissions = ems ∧
    (sendMessageStreaming c arrivals none timedOut src now sess).sess.lastError =
      some (jsTake ("Error: " ++ msg) 100) ∧
    (sendMessageStreaming c arrivals none timedOut src now sess).sess.lastErrorTime =
      some now := by
  have happend : processEvents c (initLoopState sess) (arrivals ++ suffix) =
      processEvents c (initLoopState sess) arrivals :=
    processEvents_blocked_append c suffix arrivals (initLoopState sess) msg (by rw [hrun])
  refine ⟨happend, ?_⟩
  unfold sendMessageStreaming
  rw [if_neg (by simp [hstop])]
  simp only [hrun]
  have hsup : (jsIncludes (jsToLower ("Error: " ++ msg)) "cancel" ||
      jsIncludes (jsToLower ("Error: " ++ msg)) "abort") = false := by
    simp [hnc, hna]
  simp only [hsup, Bool.false_and]
  simp

/-- Witness for C3's amended claim at a concrete blocked run. -/
theorem blocked_aborts_and_sets_lastError_witness :
    (sendMessageStreaming
        { checkCommandSafety := fun _ => (false, "rm targets root"), isPathAllowed := fun _ => true,
          TEMP_PATHS := [], STREAMING_THROTTLE_MS := 500,
          looksLikeError := fun _ => false, extractToolResultText := fun s => s,
          summarizeToolOutput := fun _ => "", formatToolStatus := fun n _ => n,
          formatToolErrorStatus := fun s => s, formatToolDoneStatus := fun s => s,
          hasCtxChat := false, askUserPending := false }
        [{ ev := .assistant [.toolUse "Bash" { command := "rm -rf /" } "t1"] }]
        none false false 9 {}).ret =
      .error "Error: Unsafe command blocked: rm targets root" ∧
    (sendMessageStreaming
        { checkCommandSafety := fun _ => (false, "rm targets root"), isPathAllowed := fun _ => true,
          TEMP_PATHS := [], STREAMING_THROTTLE_MS := 500,
          looksLikeError := fun _ => false, extractToolResultText := fun s => s,
          summarizeToolOutput := fun _ => "", formatToolStatus := fun n _ => n,
          formatToolErrorStatus := fun s => s, formatToolDoneStatus := fun s => s,
          hasCtxChat := false, askUserPending := false }
        [{ ev := .assistant [.toolUse "Bash" { command := "rm -rf /" } "t1"] }]
        none false false 9 {}).sess.lastError =
      some "Error: Unsafe command blocked: rm targets root" := by
  have h := blocked_aborts_and_sets_lastError
    { checkCommandSafety := fun _ => (false, "rm targets root"), isPathAllowed := fun _ => true,
      TEMP_PATHS := [], STREAMING_THROTTLE_MS := 500,
      looksLikeError := fun _ => false, extractToolResultText := fun s => s,
      summarizeToolOutput := fun _ => "", formatToolStatus := fun n _ => n,
      formatToolErrorStatus := fun s => s, formatToolDoneStatus := fun s => s,
      hasCtxChat := false, askUserPending := false }
    [{ ev := .assistant [.toolUse "Bash" { command := "rm -rf /" } "t1"] }] []
    [{ kind := .tool, payload := "BLOCKED: rm targets root", awaited := true }]
    {} "Unsafe command blocked: rm targets root" false false 9 {}
    rfl (by rfl) (by rfl) (by rfl)
  exact ⟨h.2.1, h.2.2.2.1⟩

/-!
## Emission invariants of the event loop (for C4, C5, C9)
-/

/-- Every `segment_end` id is a segment id: `endIds` is a sublist of `segIds`. -/
lemma endIds_sublist (ems : List Emission) : List.Sublist (endIds ems) (segIds ems) :=
  List.Sublist.filterMap _ (List.filter_sublist ems)

lemma emsOK_nil : EmsOK [] := by intro e he; cases he

lemma emsOK_append {e1 e2 : List Emission} (h1 : EmsOK e1) (h2 : EmsOK e2) :
    EmsOK (e1 ++ e2) := by
  intro e he
  rcases List.mem_append.mp he with h | h
  · exact h1 e h
  · exact h2 e h

/-- A step that issues no segment ids and keeps the counter is `StepOK` as
soon as it cannot empty a nonempty segment text. -/
lemma stepOK_of_no_ids {st st2 : LoopState} {ems : List Emission}
    (hids : segIds ems = [])
    (hsid : st2.currentSegmentId = st.currentSegmentId)
    (hpres : st.currentSegmentText ≠ "" → st2.currentSegmentText ≠ "") :
    StepOK st st2 ems := by
  have hend : endIds ems = [] := List.sublist_nil.mp (hids ▸ endIds_sublist ems)
  refine ⟨by omega, ?_, ?_, ?_, ?_, ?_, fun h _ => hpres h⟩
  · intro i hi; rw [hids] at hi; cases hi
  · intro i hi; rw [hids] at hi; cases hi
  · rw [hids]; exact List.sorted_nil
  · rw [hend, hsid, Nat.sub_self, List.range']
  · intro h; rw [hids] at h; cases h

/-- Composition of `StepOK` along sequential processing. -/
lemma stepOK_trans {st1 st2 st3 : LoopState} {e1 e2 : List Emission}
    (h1 : StepOK st1 st2 e1) (h2 : StepOK st2 st3 e2) :
    StepOK st1 st3 (e1 ++ e2) := by
  have hids : segIds (e1 ++ e2) = segIds e1 ++ segIds e2 := List.filterMap_append _ _ _
  have hends : endIds (e1 ++ e2) = endIds e1 ++ endIds e2 := by
    unfold endIds
    rw [List.filter_append, List.filterMap_append]
  refine ⟨Nat.le_trans h1.sid_le h2.sid_le, ?_, ?_, ?_, ?_, ?_, ?_⟩
  · intro i hi
    rw [hids] at hi
    rcases List.mem_append.mp hi with h | h
    · exact h1.ids_lb i h
    · exact Nat.le_trans h1.sid_le (h2.ids_lb i h)
  · intro i hi
    rw [hids] at hi
    rcases List.mem_append.mp hi with h | h
    · exact Nat.le_trans (h1.ids_ub i h) h2.sid_le
    · exact h2.ids_ub i h
  · rw [hids, List.Sorted, List.pairwise_append]
    exact ⟨h1.ids_sorted, h2.ids_sorted,
      fun x hx y hy => Nat.le_trans (h1.ids_ub x hx) (h2.ids_lb y hy)⟩
  · rw [hends, h1.ends_eq, h2.ends_eq]
    have key := List.range'_append_1 st1.currentSegmentId
      (st2.currentSegmentId - st1.currentSegmentId)
      (st3.currentSegmentId - st2.currentSegmentId)
    rw [show st1.currentSegmentId + (st2.currentSegmentId - st1.currentSegmentId) =
        st2.currentSegmentId by have := h1.sid_le; omega] at key
    rw [show st3.currentSegmentId - st2.currentSegmentId +
        (st2.currentSegmentId - st1.currentSegmentId) =
        st3.currentSegmentId - st1.currentSegmentId by
      have := h1.sid_le; have := h2.sid_le; omega] at key
    exact key
  · intro hmem
    rw [hids] at hmem
    rcases List.mem_append.mp hmem with h | h
    · have hle : st3.currentSegmentId ≤ st2.currentSegmentId := h1.ids_ub _ h
      have heq : st3.currentSegmentId = st2.currentSegmentId := by
        have := h2.sid_le; omega
      have h2mem : st2.currentSegmentId ∈ segIds e1 := heq ▸ h
      have hne : st2.currentSegmentText ≠ "" := h1.text_nonempty h2mem
      exact h2.seg_preserve hne heq
    · exact h2.text_nonempty h
  · intro hne heq
    have heq2 : st2.currentSegmentId = st1.currentSegmentId := by
      have := h1.sid_le; have := h2.sid_le; omega
    have heq3 : st3.currentSegmentId = st2.currentSegmentId := by omega
    exact h2.seg_preserve (h1.seg_preserve hne heq2) heq3

lemma toolUseProceed_fst (c : Collab) (st : LoopState) (n : String) (inp : ToolInput)
    (id : String) :
    (toolUseProceed c st n inp id).1 =
      (if jsTruthy st.currentSegmentText then
        [({ kind := .segEnd, payload := st.currentSegmentText,
            segId := some st.currentSegmentId, awaited := false } : Emission)] else []) ++
      (if ¬ jsStartsWith n "mcp__ask-user" then
        [({ kind := .tool, payload := c.formatToolStatus n inp,
            toolId := if jsTruthy id then some id else none,
            awaited := false } : Emission)] else []) := by
  simp only [toolUseProceed]

lemma toolUseProceed_sid (c : Collab) (st : LoopState) (n : String) (inp : ToolInput)
    (id : String) :
    (toolUseProceed c st n inp id).2.currentSegmentId =
      if jsTruthy st.currentSegmentText then st.currentSegmentId + 1
      else st.currentSegmentId := by
  simp only [toolUseProceed]
  split_ifs <;> rfl

lemma toolUseProceed_text (c : Collab) (st : LoopState) (n : String) (inp : ToolInput)
    (id : String) :
    (toolUseProceed c st n inp id).2.currentSegmentText =
      if jsTruthy st.currentSegmentText then "" else st.currentSegmentText := by
  simp only [toolUseProceed]
  split_ifs <;> rfl

lemma emsOK_single_segEnd (p : String) (sid : Option Nat) :
    EmsOK [{ kind := .segEnd, payload := p, segId := sid, awaited := false }] := by
  intro e he
  simp only [List.mem_singleton] at he
  subst he
  refine ⟨?_, ?_, ?_, ?_, ?_, ?_⟩ <;> simp

lemma emsOK_single_unawaited_tool (p : String) (tid : Option String) :
    EmsOK [{ kind := .tool, payload := p, toolId := tid, awaited := false }] := by
  intro e he
  simp only [List.mem_singleton] at he
  subst he
  refine ⟨?_, ?_, ?_, ?_, ?_, ?_⟩ <;> simp

lemma emsOK_single_thinking (p : String) :
    EmsOK [{ kind := .thinking, payload := p, awaited := false }] := by
  intro e he
  simp only [List.mem_singleton] at he
  subst he
  refine ⟨?_, ?_, ?_, ?_, ?_, ?_⟩ <;> simp

lemma emsOK_single_text (p : String) (sid : Option Nat) :
    EmsOK [{ kind := .text, payload := p, segId := sid, awaited := true }] := by
  intro e he
  simp only [List.mem_singleton] at he
  subst he
  refine ⟨?_, ?_, ?_, ?_, ?_, ?_⟩ <;> simp

lemma emsOK_single_toolDone (p : String) (tid : Option String) (ie : Bool) :
    EmsOK [{ kind := .toolDone, payload := p, toolId := tid, awaited := false, isError := ie }] := by
  intro e he
  simp only [List.mem_singleton] at he
  subst he
  refine ⟨?_, ?_, ?_, ?_, ?_, ?_⟩ <;> simp

lemma emsOK_blocked_announcement (pre r : String)
    (hpre : pre = "BLOCKED: " ∨ pre = "Access denied: ") :
    EmsOK [{ kind := .tool, payload := pre ++ r, awaited := true }] := by
  intro e he
  simp only [List.mem_singleton] at he
  subst he
  refine ⟨by simp, by simp, by simp, by simp, by simp, ?_⟩
  intro _ _
  rcases hpre with h | h <;> subst h
  · exact ⟨r, Or.inl rfl⟩
  · exact ⟨r, Or.inr rfl⟩

lemma stepOK_text_emit {st st2 : LoopState} {p : String}
    (hsid : st2.currentSegmentId = st.currentSegmentId)
    (hne : st2.currentSegmentText ≠ "") :
    StepOK st st2
      [{ kind := .text, payload := p, segId := some st.currentSegmentId, awaited := true }] := by
  refine ⟨by omega, ?_, ?_, ?_, ?_, fun _ => hne, fun _ _ => hne⟩
  · intro i hi
    simp [segIds] at hi
    omega
  · intro i hi
    simp [segIds] at hi
    omega
  · have h2 : segIds [({ kind := .text, payload := p,
                         segId := some st.currentSegmentId,
                         awaited := true } : Emission)] = [st.currentSegmentId] := by
      simp [segIds]
    rw [h2]
    exact List.sorted_singleton _
  · have h2 : endIds [({ kind := .text, payload := p,
                         segId := some st.currentSegmentId,
                         awaited := true } : Emission)] = [] := by
      simp [endIds]
    rw [h2, hsid, Nat.sub_self, List.range']

lemma stepOK_seg_close {st st2 : LoopState} {p : String} (tail : List Emission)
    (hsid : st2.currentSegmentId = st.currentSegmentId + 1)
    (hids : segIds tail = []) :
    StepOK st st2
      ([{ kind := .segEnd, payload := p, segId := some st.currentSegmentId,
          awaited := false }] ++ tail) := by
  have hidsall : segIds ([({ kind := .segEnd, payload := p,
                             segId := some st.currentSegmentId,
                             awaited := false } : Emission)] ++ tail) =
      [st.currentSegmentId] := by
    rw [segIds, List.filterMap_append]
    have h1 : segIds [({ kind := .segEnd, payload := p,
                         segId := some st.currentSegmentId,
                         awaited := false } : Emission)] = [st.currentSegmentId] := by
      simp [segIds]
    rw [segIds] at h1 hids
    rw [h1, hids]
    simp
  have hendtail : endIds tail = [] :=
    List.sublist_nil.mp (hids ▸ endIds_sublist tail)
  have hendsall : endIds ([({ kind := .segEnd, payload := p,
                              segId := some st.currentSegmentId,
                              awaited := false } : Emission)] ++ tail) =
      [st.currentSegmentId] := by
    rw [endIds, List.filter_append, List.filterMap_append]
    have h1 : endIds [({ kind := .segEnd, payload := p,
                         segId := some st.currentSegmentId,
                         awaited := false } : Emission)] = [st.currentSegmentId] := by
      simp [endIds]
    rw [endIds] at h1 hendtail
    rw [h1, hendtail]
    simp
  refine ⟨by omega, ?_, ?_, ?_, ?_, ?_, ?_⟩
  · intro i hi
    rw [hidsall] at hi
    simp at hi
    omega
  · intro i hi
    rw [hidsall] at hi
    simp at hi
    omega
  · rw [hidsall]
    exact List.sorted_singleton _
  · rw [hendsall, hsid]
    simp
  · intro hmem
    rw [hidsall, hsid] at hmem
    simp at hmem
  · intro _ heq
    rw [hsid] at heq
    omega

lemma toolUseProceed_stepOK (c : Collab) (st : LoopState) (n : String) (inp : ToolInput)
    (id : String) :
    StepOK st (toolUseProceed c st n inp id).2 (toolUseProceed c st n inp id).1 ∧
    EmsOK (toolUseProceed c st n inp id).1 := by
  have hf := toolUseProceed_fst c st n inp id
  have hs := toolUseProceed_sid c st n inp id
  have ht := toolUseProceed_text c st n inp id
  have htailids : segIds (if ¬ jsStartsWith n "mcp__ask-user" then
      [({ kind := .tool, payload := c.formatToolStatus n inp,
          toolId := if jsTruthy id then some id else none,
          awaited := false } : Emission)] else []) = [] := by
    split_ifs <;> simp [segIds]
  have htailOK : EmsOK (if ¬ jsStartsWith n "mcp__ask-user" then
      [({ kind := .tool, payload := c.formatToolStatus n inp,
          toolId := if jsTruthy id then some id else none,
          awaited := false } : Emission)] else []) := by
    split_ifs <;> first
      | exact emsOK_nil
      | exact emsOK_single_unawaited_tool _ _
  by_cases hseg : jsTruthy st.currentSegmentText = true
  · rw [if_pos hseg] at hf hs ht
    constructor
    · rw [hf]
      exact stepOK_seg_close _ hs htailids
    · rw [hf]
      exact emsOK_append (emsOK_single_segEnd _ _) htailOK
  · rw [if_neg hseg] at hf hs ht
    constructor
    · apply stepOK_of_no_ids
      · rw [hf, segIds, List.filterMap_append]
        rw [segIds] at htailids
        rw [htailids]
        simp
      · exact hs
      · intro h
        rw [ht]
        exact h
    · rw [hf]
      exact emsOK_append emsOK_nil htailOK

lemma processBlock_stepOK (c : Collab) (st : LoopState) (b : Block) :
    StepOK st (processBlock c st b).stAfter (processBlock c st b).ems ∧
    EmsOK (processBlock c st b).ems := by
  cases b with
  | thinking t =>
    by_cases ht : jsTruthy t = true
    · simp only [processBlock, if_pos ht, BlockStep.ems, BlockStep.stAfter]
      exact ⟨stepOK_of_no_ids (by simp [segIds]) rfl (fun h => h), emsOK_single_thinking t⟩
    · simp only [processBlock, if_neg ht, BlockStep.ems, BlockStep.stAfter]
      exact ⟨stepOK_of_no_ids rfl rfl (fun h => h), emsOK_nil⟩
  | toolUse n inp id =>
    simp only [processBlock, processToolUse]
    split_ifs with h1 h2
    · simp only [BlockStep.ems, BlockStep.stAfter]
      exact ⟨stepOK_of_no_ids (by simp [segIds]) rfl (fun h => h),
             emsOK_blocked_announcement "BLOCKED: " _ (Or.inl rfl)⟩
    · simp only [BlockStep.ems, BlockStep.stAfter]
      exact ⟨stepOK_of_no_ids (by simp [segIds]) rfl (fun h => h),
             emsOK_blocked_announcement "Access denied: " _ (Or.inr rfl)⟩
    · simp only [BlockStep.ems, BlockStep.stAfter]
      exact toolUseProceed_stepOK c st n inp id
  | text t now =>
    simp only [processBlock]
    split_ifs with hc
    · simp only [BlockStep.ems, BlockStep.stAfter]
      refine ⟨stepOK_text_emit rfl ?_, emsOK_single_text _ _⟩
      exact str_long_ne_empty hc.2
    · simp only [BlockStep.ems, BlockStep.stAfter]
      refine ⟨stepOK_of_no_ids rfl rfl ?_, emsOK_nil⟩
      intro h
      exact str_append_ne_empty t h
  | other ty =>
    simp only [processBlock, BlockStep.ems, BlockStep.stAfter]
    exact ⟨stepOK_of_no_ids rfl rfl (fun h => h), emsOK_nil⟩

lemma processBlocks_stepOK (c : Collab) :
    ∀ (bs : List Block) (st : LoopState),
      StepOK st (processBlocks c st bs).stAfter (processBlocks c st bs).ems ∧
      EmsOK (processBlocks c st bs).ems := by
  intro bs
  induction bs with
  | nil =>
    intro st
    simp only [processBlocks, BlockStep.ems, BlockStep.stAfter]
    exact ⟨stepOK_of_no_ids rfl rfl (fun h => h), emsOK_nil⟩
  | cons b bs ih =>
    intro st
    have h := processBlock_stepOK c st b
    simp only [processBlocks]
    cases hpb : processBlock c st b with
    | blocked ems st1 msg =>
      rw [hpb] at h
      simp only [BlockStep.ems, BlockStep.stAfter] at h ⊢
      exact h
    | ok ems st1 =>
      rw [hpb] at h
      simp only [BlockStep.ems, BlockStep.stAfter] at h
      have h2 := ih st1
      cases hpbs : processBlocks c st1 bs with
      | blocked ems2 st2 msg =>
        rw [hpbs] at h2
        simp only [hpbs, BlockStep.ems, BlockStep.stAfter] at h2 ⊢
        exact ⟨stepOK_trans h.1 h2.1, emsOK_append h.2 h2.2⟩
      | ok ems2 st2 =>
        rw [hpbs] at h2
        simp only [hpbs, BlockStep.ems, BlockStep.stAfter] at h2 ⊢
        exact ⟨stepOK_trans h.1 h2.1, emsOK_append h.2 h2.2⟩

lemma processUBlock_stepOK (c : Collab) (st : LoopState) (b : UBlock) :
    StepOK st (processUBlock c st b).2 (processUBlock c st b).1 ∧
    EmsOK (processUBlock c st b).1 := by
  unfold processUBlock
  split_ifs with h
  · cases hget : mapGet st.pendingTools b.tool_use_id with
    | none =>
      simp only [hget]
      exact ⟨stepOK_of_no_ids rfl rfl (fun h => h), emsOK_nil⟩
    | some d =>
      simp only [hget]
      exact ⟨stepOK_of_no_ids (by simp [segIds]) rfl (fun h => h),
             emsOK_single_toolDone _ _ _⟩
  · exact ⟨stepOK_of_no_ids rfl rfl (fun h => h), emsOK_nil⟩

lemma processUBlocks_stepOK (c : Collab) :
    ∀ (bs : List UBlock) (st : LoopState),
      StepOK st (processUBlocks c st bs).2 (processUBlocks c st bs).1 ∧
      EmsOK (processUBlocks c st bs).1 := by
  intro bs
  induction bs with
  | nil =>
    intro st
    simp only [processUBlocks]
    exact ⟨stepOK_of_no_ids rfl rfl (fun h => h), emsOK_nil⟩
  | cons b bs ih =>
    intro st
    simp only [processUBlocks]
    have h := processUBlock_stepOK c st b
    have h2 := ih (processUBlock c st b).2
    exact ⟨stepOK_trans h.1 h2.1, emsOK_append h.2 h2.2⟩

lemma processEvent_stepOK (c : Collab) (st : LoopState) (ev : Event) :
    StepOK st (processEvent c st ev).stAfter (processEvent c st ev).ems ∧
    EmsOK (processEvent c st ev).ems := by
  cases ev with
  | assistant blocks =>
    simp only [processEvent]
    exact processBlocks_stepOK c blocks st
  | user blocks =>
    simp only [processEvent, BlockStep.ems, BlockStep.stAfter]
    exact processUBlocks_stepOK c blocks st
  | result usage =>
    cases usage with
    | none =>
      simp only [processEvent, BlockStep.ems, BlockStep.stAfter]
      exact ⟨stepOK_of_no_ids rfl rfl (fun h => h), emsOK_nil⟩
    | some u =>
      simp only [processEvent, BlockStep.ems, BlockStep.stAfter]
      exact ⟨stepOK_of_no_ids rfl rfl (fun h => h), emsOK_nil⟩
  | other ty =>
    simp only [processEvent, BlockStep.ems, BlockStep.stAfter]
    exact ⟨stepOK_of_no_ids rfl rfl (fun h => h), emsOK_nil⟩

/-- Main loop invariant: a whole `for await` pass satisfies the segment-id
discipline and the emission kind/await discipline. -/
lemma processEvents_stepOK (c : Collab) :
    ∀ (as : List Arrival) (st : LoopState),
      StepOK st (processEvents c st as).2.1 (processEvents c st as).1 ∧
      EmsOK (processEvents c st as).1 := by
  intro as
  induction as with
  | nil =>
    intro st
    simp only [processEvents]
    exact ⟨stepOK_of_no_ids rfl rfl (fun h => h), emsOK_nil⟩
  | cons a rest ih =>
    intro st
    simp only [processEvents]
    by_cases hstop : a.stopReq = true
    · rw [if_pos hstop]
      exact ⟨stepOK_of_no_ids rfl rfl (fun h => h), emsOK_nil⟩
    · rw [if_neg hstop]
      have hst0 : StepOK st
          (if st.sessionId = none ∧ jsTruthy a.session_id = true then
            { st with sessionId := some a.session_id } else st) [] := by
        split_ifs <;> exact stepOK_of_no_ids rfl rfl (fun h => h)
      set st0 := if st.sessionId = none ∧ jsTruthy a.session_id = true then
        { st with sessionId := some a.session_id } else st with hst0def
      have hev := processEvent_stepOK c st0 a.ev
      cases hpe : processEvent c st0 a.ev with
      | blocked ems st1 msg =>
        rw [hpe] at hev
        simp only [BlockStep.ems, BlockStep.stAfter] at hev
        simp only [hpe]
        have := stepOK_trans hst0 hev.1
        simpa using ⟨this, hev.2⟩
      | ok ems st1 =>
        rw [hpe] at hev
        simp only [BlockStep.ems, BlockStep.stAfter] at hev
        simp only [hpe]
        by_cases hask : st1.askUserTriggered = true
        · rw [if_pos hask]
          have := stepOK_trans hst0 hev.1
          simpa using ⟨this, hev.2⟩
        · rw [if_neg hask]
          have h2 := ih st1
          have hcomb := stepOK_trans (stepOK_trans hst0 hev.1) h2.1
          simpa using ⟨hcomb, emsOK_append hev.2 h2.2⟩

lemma resultAssembly_facts (stF : LoopState) (timedOut : Bool) :
    ((segIds (resultAssembly stF timedOut).1).Sorted (· ≤ ·)) ∧
    (∀ i ∈ segIds (resultAssembly stF timedOut).1, stF.currentSegmentId ≤ i) ∧
    ((endIds (resultAssembly stF timedOut).1).Nodup) ∧
    (∀ e ∈ (resultAssembly stF timedOut).1, e.awaited = true) ∧
    (stF.askUserTriggered = false →
      (jsTruthy stF.currentSegmentText = true →
        stF.currentSegmentId ∈ endIds (resultAssembly stF timedOut).1) ∧
      (∀ k ∈ segIds (resultAssembly stF timedOut).1,
        k ∈ endIds (resultAssembly stF timedOut).1)) := by
  unfold resultAssembly
  by_cases hask : stF.askUserTriggered = true
  · rw [if_pos hask]
    refine ⟨by simp [segIds], by simp [segIds], by simp [endIds], ?_, ?_⟩
    · intro e he
      simp at he
      subst he
      rfl
    · intro hf
      rw [hask] at hf
      cases hf
  · rw [if_neg hask]
    by_cases hflush : jsTruthy stF.currentSegmentText = true
    · rw [if_pos hflush]
      cases timedOut with
      | true =>
        refine ⟨?_, ?_, ?_, ?_, ?_⟩
        · simp [segIds, List.sorted_cons]
        · intro i hi
          simp [segIds] at hi
          omega
        · simp [endIds]
        · intro e he
          simp at he
          rcases he with h | h | h | h <;> subst h <;> rfl
        · intro _
          constructor
          · intro _
            simp [endIds]
          · intro k hk
            simp [segIds] at hk
            simp [endIds]
            omega
      | false =>
        refine ⟨?_, ?_, ?_, ?_, ?_⟩
        · simp [segIds]
        · simp [segIds]
        · simp [endIds]
        · intro e he
          simp at he
          rcases he with h | h <;> subst h <;> rfl
        · intro _
          constructor
          · intro _
            simp [endIds]
          · intro k hk
            simp [segIds] at hk
            simp [endIds]
            omega
    · rw [if_neg hflush]
      cases timedOut with
      | true =>
        refine ⟨?_, ?_, ?_, ?_, ?_⟩
        · simp [segIds, List.sorted_cons]
        · intro i hi
          simp [segIds] at hi
          omega
        · simp [endIds]
        · intro e he
          simp at he
          rcases he with h | h | h <;> subst h <;> rfl
        · intro _
          refine ⟨fun hf => absurd hf hflush, ?_⟩
          intro k hk
          simp [segIds] at hk
          simp [endIds]
          omega
      | false =>
        refine ⟨?_, ?_, ?_, ?_, ?_⟩
        · simp [segIds]
        · simp [segIds]
        · simp [endIds]
        · intro e he
          simp at he
          subst he
          rfl
        · intro _
          refine ⟨fun hf => absurd hf hflush, ?_⟩
          intro k hk
          simp [segIds] at hk

/-- Discipline of a full emission trace: loop part bounded by the final
segment counter with `segment_end`s exactly `0..sidF-1`, tail part at or
above the counter with duplicate-free `segment_end`s. -/
lemma segdisc_concat (lems tail : List Emission) (sidF : Nat)
    (hsort : (segIds lems).Sorted (· ≤ ·))
    (hub : ∀ i ∈ segIds lems, i ≤ sidF)
    (hends : endIds lems = List.range' 0 sidF)
    (htsort : (segIds tail).Sorted (· ≤ ·))
    (htlb : ∀ i ∈ segIds tail, sidF ≤ i)
    (htnd : (endIds tail).Nodup) :
    ((segIds (lems ++ tail)).Sorted (· ≤ ·)) ∧
    (∀ k, (endIds (lems ++ tail)).count k ≤ 1) ∧
    ((∀ k ∈ segIds (lems ++ tail), sidF ≤ k → k ∈ endIds tail) →
      ∀ k ∈ segIds (lems ++ tail), (endIds (lems ++ tail)).count k = 1) := by
  have hseg_app : segIds (lems ++ tail) = segIds lems ++ segIds tail :=
    List.filterMap_append _ _ _
  have hend_app : endIds (lems ++ tail) = endIds lems ++ endIds tail := by
    rw [endIds, List.filter_append, List.filterMap_append]
    rfl
  have htend_lb : ∀ i ∈ endIds tail, sidF ≤ i := by
    intro i hi
    exact htlb i ((endIds_sublist tail).mem hi)
  have hcount : ∀ k, (endIds (lems ++ tail)).count k =
      (List.range' 0 sidF).count k + (endIds tail).count k := by
    intro k
    rw [hend_app, List.count_append, hends]
  have hrange_count : ∀ k, (List.range' 0 sidF).count k = if k < sidF then 1 else 0 := by
    intro k
    by_cases hk : k < sidF
    · rw [if_pos hk]
      exact List.count_eq_one_of_mem (List.nodup_range' _ _)
        (List.mem_range'_1.mpr ⟨Nat.zero_le _, by omega⟩)
    · rw [if_neg hk]
      refine List.count_eq_zero_of_not_mem ?_
      intro hmem
      exact hk (by simpa using (List.mem_range'_1.mp hmem).2)
  refine ⟨?_, ?_, ?_⟩
  · rw [hseg_app, List.Sorted, List.pairwise_append]
    exact ⟨hsort, htsort, fun x hx y hy => Nat.le_trans (hub x hx) (htlb y hy)⟩
  · intro k
    rw [hcount, hrange_count]
    by_cases hk : k < sidF
    · rw [if_pos hk]
      have : (endIds tail).count k = 0 := by
        refine List.count_eq_zero_of_not_mem ?_
        intro hmem
        exact absurd (htend_lb k hmem) (by omega)
      omega
    · rw [if_neg hk]
      have := List.nodup_iff_count_le_one.mp htnd k
      omega
  · intro hcover k hk
    rw [hcount, hrange_count]
    by_cases hklt : k < sidF
    · rw [if_pos hklt]
      have : (endIds tail).count k = 0 := by
        refine List.count_eq_zero_of_not_mem ?_
        intro hmem
        exact absurd (htend_lb k hmem) (by omega)
      omega
    · rw [if_neg hklt]
      have hmem : k ∈ endIds tail := hcover k hk (by omega)
      have := List.count_eq_one_of_mem htnd hmem
      omega

lemma resultAssembly_kinds (stF : LoopState) (timedOut : Bool) :
    ∀ e ∈ (resultAssembly stF timedOut).1,
      (e.kind = .text ∨ e.kind = .segEnd ∨ e.kind = .done) ∧ e.awaited = true := by
  intro e he
  by_cases h1 : stF.askUserTriggered = true <;>
    by_cases h2 : jsTruthy stF.currentSegmentText = true <;>
      cases timedOut <;>
        simp [resultAssembly, h1, h2] at he <;>
          rcases he with rfl | rfl | rfl | rfl <;> simp

/-- The emissions of a send call are the loop's emissions, possibly followed
by the result-assembly tail (and are empty when the pending-stop check
trips). -/
lemma sendMS_shape (c : Collab) (arrivals : List Arrival) (streamErr : Option String)
    (timedOut src : Bool) (now : Nat) (sess : SessionState) :
    (sess.stopRequested = true ∧
      (sendMessageStreaming c arrivals streamErr timedOut src now sess).emissions = []) ∨
    ((sendMessageStreaming c arrivals streamErr timedOut src now sess).emissions =
      (processEvents c (initLoopState sess) arrivals).1) ∨
    ((sendMessageStreaming c arrivals streamErr timedOut src now sess).emissions =
      (processEvents c (initLoopState sess) arrivals).1 ++
        (resultAssembly (processEvents c (initLoopState sess) arrivals).2.1 timedOut).1) := by
  by_cases hsr : sess.stopRequested = true
  · left
    refine ⟨hsr, ?_⟩
    unfold sendMessageStreaming
    rw [if_pos hsr]
  · right
    unfold sendMessageStreaming
    rw [if_neg hsr]
    cases hex : (processEvents c (initLoopState sess) arrivals).2.2 with
    | blocked m =>
      simp only [hex]
      cases hsup : ((jsIncludes (jsToLower ("Error: " ++ m)) "cancel" ||
          jsIncludes (jsToLower ("Error: " ++ m)) "abort") &&
          ((processEvents c (initLoopState sess) arrivals).2.1.queryCompleted ||
           (processEvents c (initLoopState sess) arrivals).2.1.askUserTriggered ||
           src || timedOut)) with
      | false =>
        simp only [hsup]
        exact Or.inl (by trivial)
      | true =>
        simp only [hsup]
        exact Or.inr (by trivial)
    | finished =>
      simp only [hex]
      cases streamErr with
      | none => exact Or.inr (by trivial)
      | some e =>
        cases hsup : ((jsIncludes (jsToLower e) "cancel" || jsIncludes (jsToLower e) "abort") &&
            ((processEvents c (initLoopState sess) arrivals).2.1.queryCompleted ||
             (processEvents c (initLoopState sess) arrivals).2.1.askUserTriggered ||
             src || timedOut)) with
        | false =>
          simp only [hsup]
          exact Or.inl (by trivial)
        | true =>
          simp only [hsup]
          exact Or.inr (by trivial)
    | stopBreak =>
      simp only [hex]
      cases streamErr with
      | none => exact Or.inr (by trivial)
      | some e =>
        cases hsup : ((jsIncludes (jsToLower e) "cancel" || jsIncludes (jsToLower e) "abort") &&
            ((processEvents c (initLoopState sess) arrivals).2.1.queryCompleted ||
             (processEvents c (initLoopState sess) arrivals).2.1.askUserTriggered ||
             src || timedOut)) with
        | false =>
          simp only [hsup]
          exact Or.inl (by trivial)
        | true =>
          simp only [hsup]
          exact Or.inr (by trivial)
    | askUserBreak =>
      simp only [hex]
      cases streamErr with
      | none => exact Or.inr (by trivial)
      | some e =>
        cases hsup : ((jsIncludes (jsToLower e) "cancel" || jsIncludes (jsToLower e) "abort") &&
            ((processEvents c (initLoopState sess) arrivals).2.1.queryCompleted ||
             (processEvents c (initLoopState sess) arrivals).2.1.askUserTriggered ||
             src || timedOut)) with
        | false =>
          simp only [hsup]
          exact Or.inl (by trivial)
        | true =>
          simp only [hsup]
          exact Or.inr (by trivial)

/-- When the pending-stop check passes, the stream raises nothing and the
loop is not aborted by a safety block, the send call reaches result
assembly: full characterisation of its output. -/
lemma sendMS_finalize (c : Collab) (arrivals : List Arrival)
    (timedOut src : Bool) (now : Nat) (sess : SessionState)
    (hsr : sess.stopRequested = false)
    (hnb : ∀ m, (processEvents c (initLoopState sess) arrivals).2.2 ≠ .blocked m) :
    sendMessageStreaming c arrivals none timedOut src now sess =
      { emissions := (processEvents c (initLoopState sess) arrivals).1 ++
          (resultAssembly (processEvents c (initLoopState sess) arrivals).2.1 timedOut).1,
        ret := .ok (resultAssembly (processEvents c (initLoopState sess) arrivals).2.1 timedOut).2,
        sess := { sess with
          sessionId := (processEvents c (initLoopState sess) arrivals).2.1.sessionId,
          lastActivity := some now,
          queryStarted := false,
          currentTool := none,
          lastTool := (processEvents c (initLoopState sess) arrivals).2.1.lastTool,
          lastError := none,
          lastErrorTime := none,
          lastUsage := (processEvents c (initLoopState sess) arrivals).2.1.lastUsage,
          hasAbortController := false,
          abortSignalled := false,
          isQueryRunning := false,
          stopRequested := false } } := by
  unfold sendMessageStreaming
  rw [if_neg (by simp [hsr])]
  cases hex : (processEvents c (initLoopState sess) arrivals).2.2 with
  | blocked m => exact absurd hex (hnb m)
  | finished => simp only [hex]
  | stopBreak => simp only [hex]
  | askUserBreak => simp only [hex]

/-- Variant of `sendMS_finalize`: a stream error that matches the
cancellation patterns while a suppression flag holds is swallowed and the
call still reaches result assembly. -/
lemma sendMS_finalize_suppressed (c : Collab) (arrivals : List Arrival) (e : String)
    (timedOut src : Bool) (now : Nat) (sess : SessionState)
    (hsr : sess.stopRequested = false)
    (hnb : ∀ m, (processEvents c (initLoopState sess) arrivals).2.2 ≠ .blocked m)
    (hsup : ((jsIncludes (jsToLower e) "cancel" || jsIncludes (jsToLower e) "abort") &&
      ((processEvents c (initLoopState sess) arrivals).2.1.queryCompleted ||
       (processEvents c (initLoopState sess) arrivals).2.1.askUserTriggered ||
       src || timedOut)) = true) :
    sendMessageStreaming c arrivals (some e) timedOut src now sess =
      { emissions := (processEvents c (initLoopState sess) arrivals).1 ++
          (resultAssembly (processEvents c (initLoopState sess) arrivals).2.1 timedOut).1,
        ret := .ok (resultAssembly (processEvents c (initLoopState sess) arrivals).2.1 timedOut).2,
        sess := { sess with
          sessionId := (processEvents c (initLoopState sess) arrivals).2.1.sessionId,
          lastActivity := some now,
          queryStarted := false,
          currentTool := none,
          lastTool := (processEvents c (initLoopState sess) arrivals).2.1.lastTool,
          lastError := none,
          lastErrorTime := none,
          lastUsage := (processEvents c (initLoopState sess) arrivals).2.1.lastUsage,
          hasAbortController := false,
          abortSignalled := false,
          isQueryRunning := false,
          stopRequested := false } } := by
  unfold sendMessageStreaming
  rw [if_neg (by simp [hsr])]
  cases hex : (processEvents c (initLoopState sess) arrivals).2.2 with
  | blocked m => exact absurd hex (hnb m)
  | finished => simp only [hex, hsup]
  | stopBreak => simp only [hex, hsup]
  | askUserBreak => simp only [hex, hsup]

lemma jsTruthy_iff (s : String) : jsTruthy s = true ↔ s ≠ "" := by
  simp [jsTruthy]

/-!
## C5 — segment-end discipline
-/

/-- C5 counterexample: on a run aborted by a safety block after a streamed
text emission, segment id 0 appears in the emissions but receives no
`segment_end` at all — refuting "each segment id has exactly one
`segment_end` emission" over every sequence of consumed events. -/
theorem segment_ids_counterexample :
    0 ∈ segIds (sendMessageStreaming
        { checkCommandSafety := fun _ => (false, "bad"), isPathAllowed := fun _ => true,
          TEMP_PATHS := [], STREAMING_THROTTLE_MS := 500,
          looksLikeError := fun _ => false, extractToolResultText := fun s => s,
          summarizeToolOutput := fun _ => "", formatToolStatus := fun n _ => n,
          formatToolErrorStatus := fun s => s, formatToolDoneStatus := fun s => s,
          hasCtxChat := false, askUserPending := false }
        [{ ev := .assistant [.text "this text is long enough to stream" 1000] },
         { ev := .assistant [.toolUse "Bash" { command := "x" } "t1"] }]
        none false false 7 {}).emissions ∧
    (endIds (sendMessageStreaming
        { checkCommandSafety := fun _ => (false, "bad"), isPathAllowed := fun _ => true,
          TEMP_PATHS := [], STREAMING_THROTTLE_MS := 500,
          looksLikeError := fun _ => false, extractToolResultText := fun s => s,
          summarizeToolOutput := fun _ => "", formatToolStatus := fun n _ => n,
          formatToolErrorStatus := fun s => s, formatToolDoneStatus := fun s => s,
          hasCtxChat := false, askUserPending := false }
        [{ ev := .assistant [.text "this text is long enough to stream" 1000] },
         { ev := .assistant [.toolUse "Bash" { command := "x" } "t1"] }]
        none false false 7 {}).emissions).count 0 = 0 := by
  constructor
  · decide
  · decide

/-- C5 (amended): over every send call, the segment ids carried by emissions
are non-decreasing in emission order and every segment id receives at most
one `segment_end` (so a `segment_end` with id `k` always precedes any
emission with an id greater than `k`); on runs that reach result assembly
(the pending-stop check passes, any stream error is a suppressed
cancellation/abort — as after a user stop or the watchdog timeout — and no
safety block aborts the loop) without an ask-user short-circuit, every
segment id appearing in an emission receives exactly one `segment_end`. -/
theorem segment_ids_discipline (c : Collab) (arrivals : List Arrival)
    (streamErr : Option String) (timedOut src : Bool) (now : Nat) (sess : SessionState) :
    ((segIds (sendMessageStreaming c arrivals streamErr timedOut src now sess).emissions).Sorted
      (· ≤ ·)) ∧
    (∀ k, (endIds
      (sendMessageStreaming c arrivals streamErr timedOut src now sess).emissions).count k ≤ 1) ∧
    (sess.stopRequested = false →
      (streamErr = none ∨ ∃ e, streamErr = some e ∧
        ((jsIncludes (jsToLower e) "cancel" || jsIncludes (jsToLower e) "abort") &&
         ((processEvents c (initLoopState sess) arrivals).2.1.queryCompleted ||
          (processEvents c (initLoopState sess) arrivals).2.1.askUserTriggered ||
          src || timedOut)) = true) →
      (∀ m, (processEvents c (initLoopState sess) arrivals).2.2 ≠ .blocked m) →
      (processEvents c (initLoopState sess) arrivals).2.1.askUserTriggered = false →
      ∀ k ∈ segIds (sendMessageStreaming c arrivals streamErr timedOut src now sess).emissions,
        (endIds
          (sendMessageStreaming c arrivals streamErr timedOut src now sess).emissions).count k
          = 1) := by
  obtain ⟨hstep, _⟩ := processEvents_stepOK c arrivals (initLoopState sess)
  have hends : endIds (processEvents c (initLoopState sess) arrivals).1 =
      List.range' 0 (processEvents c (initLoopState sess) arrivals).2.1.currentSegmentId := by
    have h := hstep.ends_eq
    simpa [initLoopState] using h
  obtain ⟨htsort, htlb, htnd, _, hcover⟩ :=
    resultAssembly_facts (processEvents c (initLoopState sess) arrivals).2.1 timedOut
  have hmain := segdisc_concat (processEvents c (initLoopState sess) arrivals).1
    (resultAssembly (processEvents c (initLoopState sess) arrivals).2.1 timedOut).1
    (processEvents c (initLoopState sess) arrivals).2.1.currentSegmentId
    hstep.ids_sorted hstep.ids_ub hends htsort htlb htnd
  have hmain0 := segdisc_concat (processEvents c (initLoopState sess) arrivals).1 []
    (processEvents c (initLoopState sess) arrivals).2.1.currentSegmentId
    hstep.ids_sorted hstep.ids_ub hends List.sorted_nil (by intro i hi; cases hi)
    List.nodup_nil
  rw [List.append_nil] at hmain0
  refine ⟨?_, ?_, ?_⟩
  · rcases sendMS_shape c arrivals streamErr timedOut src now sess with ⟨_, hemp⟩ | heq | heq
    · rw [hemp]
      simp [segIds]
    · rw [heq]
      exact hmain0.1
    · rw [heq]
      exact hmain.1
  · intro k
    rcases sendMS_shape c arrivals streamErr timedOut src now sess with ⟨_, hemp⟩ | heq | heq
    · rw [hemp]
      simp [endIds]
    · rw [heq]
      exact hmain0.2.1 k
    · rw [heq]
      exact hmain.2.1 k
  · intro hsr hstream hnb hask
    have hem : (sendMessageStreaming c arrivals streamErr timedOut src now sess).emissions =
        (processEvents c (initLoopState sess) arrivals).1 ++
        (resultAssembly (processEvents c (initLoopState sess) arrivals).2.1 timedOut).1 := by
      rcases hstream with h | ⟨e, he, hsup⟩
      · subst h
        rw [sendMS_finalize c arrivals timedOut src now sess hsr hnb]
      · subst he
        rw [sendMS_finalize_suppressed c arrivals e timedOut src now sess hsr hnb hsup]
    rw [hem]
    refine hmain.2.2 ?_
    intro k hk hge
    have hk2 := hk
    rw [segIds, List.filterMap_append] at hk2
    rcases List.mem_append.mp hk2 with hmem | hmem
    · have hle : k ≤ (processEvents c (initLoopState sess) arrivals).2.1.currentSegmentId :=
        hstep.ids_ub k hmem
      have hkeq : k = (processEvents c (initLoopState sess) arrivals).2.1.currentSegmentId := by
        omega
      subst hkeq
      have hne : (processEvents c (initLoopState sess) arrivals).2.1.currentSegmentText ≠ "" :=
        hstep.text_nonempty hmem
      exact (hcover hask).1 ((jsTruthy_iff _).mpr hne)
    · exact (hcover hask).2 k hmem

/-- Witness for C5's amended claim on a watchdog-timeout run: the stream
raises a suppressed abort error after one long text block and a tool
invocation, and segment 0 (and the notice segment) each receive exactly
one `segment_end`. -/
theorem segment_ids_discipline_witness :
    ((segIds (sendMessageStreaming
        { checkCommandSafety := fun _ => (true, ""), isPathAllowed := fun _ => true,
          TEMP_PATHS := [], STREAMING_THROTTLE_MS := 500,
          looksLikeError := fun _ => false, extractToolResultText := fun s => s,
          summarizeToolOutput := fun _ => "", formatToolStatus := fun n _ => n,
          formatToolErrorStatus := fun s => s, formatToolDoneStatus := fun s => s,
          hasCtxChat := false, askUserPending := false }
        [{ ev := .assistant [.text "this text is long enough to stream" 1000,
                             .toolUse "Glob" {} "t1"] }]
        (some "Error: The operation was aborted") true false 7 {}).emissions).Sorted (· ≤ ·)) ∧
    (endIds (sendMessageStreaming
        { checkCommandSafety := fun _ => (true, ""), isPathAllowed := fun _ => true,
          TEMP_PATHS := [], STREAMING_THROTTLE_MS := 500,
          looksLikeError := fun _ => false, extractToolResultText := fun s => s,
          summarizeToolOutput := fun _ => "", formatToolStatus := fun n _ => n,
          formatToolErrorStatus := fun s => s, formatToolDoneStatus := fun s => s,
          hasCtxChat := false, askUserPending := false }
        [{ ev := .assistant [.text "this text is long enough to stream" 1000,
                             .toolUse "Glob" {} "t1"] }]
        (some "Error: The operation was aborted") true false 7 {}).emissions).count 0 = 1 ∧
    (endIds (sendMessageStreaming
        { checkCommandSafety := fun _ => (true, ""), isPathAllowed := fun _ => true,
          TEMP_PATHS := [], STREAMING_THROTTLE_MS := 500,
          looksLikeError := fun _ => false, extractToolResultText := fun s => s,
          summarizeToolOutput := fun _ => "", formatToolStatus := fun n _ => n,
          formatToolErrorStatus := fun s => s, formatToolDoneStatus := fun s => s,
          hasCtxChat := false, askUserPending := false }
        [{ ev := .assistant [.text "this text is long enough to stream" 1000,
                             .toolUse "Glob" {} "t1"] }]
        (some "Error: The operation was aborted") true false 7 {}).emissions).count 2 = 1 := by
  have h := segment_ids_discipline
    { checkCommandSafety := fun _ => (true, ""), isPathAllowed := fun _ => true,
      TEMP_PATHS := [], STREAMING_THROTTLE_MS := 500,
      looksLikeError := fun _ => false, extractToolResultText := fun s => s,
      summarizeToolOutput := fun _ => "", formatToolStatus := fun n _ => n,
      formatToolErrorStatus := fun s => s, formatToolDoneStatus := fun s => s,
      hasCtxChat := false, askUserPending := false }
    [{ ev := .assistant [.text "this text is long enough to stream" 1000,
                         .toolUse "Glob" {} "t1"] }]
    (some "Error: The operation was aborted") true false 7 {}
  have hnb : ∀ m, (processEvents
      { checkCommandSafety := fun _ => (true, ""), isPathAllowed := fun _ => true,
        TEMP_PATHS := [], STREAMING_THROTTLE_MS := 500,
        looksLikeError := fun _ => false, extractToolResultText := fun s => s,
        summarizeToolOutput := fun _ => "", formatToolStatus := fun n _ => n,
        formatToolErrorStatus := fun s => s, formatToolDoneStatus := fun s => s,
        hasCtxChat := false, askUserPending := false }
      (initLoopState {})
      [{ ev := .assistant [.text "this text is long enough to stream" 1000,
                           .toolUse "Glob" {} "t1"] }]).2.2 ≠ LoopExit.blocked m := by
    intro m hm
    have hfin : (processEvents
        { checkCommandSafety := fun _ => (true, ""), isPathAllowed := fun _ => true,
          TEMP_PATHS := [], STREAMING_THROTTLE_MS := 500,
          looksLikeError := fun _ => false, extractToolResultText := fun s => s,
          summarizeToolOutput := fun _ => "", formatToolStatus := fun n _ => n,
          formatToolErrorStatus := fun s => s, formatToolDoneStatus := fun s => s,
          hasCtxChat := false, askUserPending := false }
        (initLoopState {})
        [{ ev := .assistant [.text "this text is long enough to stream" 1000,
                             .toolUse "Glob" {} "t1"] }]).2.2 = LoopExit.finished := by decide
    rw [hfin] at hm
    cases hm
  exact ⟨h.1,
    h.2.2 rfl (Or.inr ⟨"Error: The operation was aborted", rfl, by decide⟩) hnb
      (by decide) 0 (by decide),
    h.2.2 rfl (Or.inr ⟨"Error: The operation was aborted", rfl, by decide⟩) hnb
      (by decide) 2 (by decide)⟩

/-!
## C9 — awaited vs fire-and-forget callbacks
-/

lemma awaitSpec_of_emsOK {ems : List Emission} (h : EmsOK ems) :
    ∀ e ∈ ems, AwaitSpec e := by
  intro e he
  obtain ⟨h1, h2, h3, h4, h5, h6⟩ := h e he
  refine ⟨h1, fun hk => absurd hk h5, h2, h3, ?_, h6⟩
  intro hna
  cases hk : e.kind with
  | thinking => exact Or.inl rfl
  | tool => exact Or.inr (Or.inl rfl)
  | toolDone => exact Or.inr (Or.inr (Or.inl rfl))
  | segEnd => exact Or.inr (Or.inr (Or.inr rfl))
  | text =>
    have := h1 hk
    rw [hna] at this
    cases this
  | done => exact absurd hk h5

lemma awaitSpec_of_tail (stF : LoopState) (timedOut : Bool) :
    ∀ e ∈ (resultAssembly stF timedOut).1, AwaitSpec e := by
  intro e he
  obtain ⟨hk, haw⟩ := resultAssembly_kinds stF timedOut e he
  refine ⟨fun _ => haw, fun _ => haw, ?_, ?_, ?_, ?_⟩
  · intro h
    rcases hk with h2 | h2 | h2 <;> rw [h] at h2 <;> exact absurd h2 (by decide)
  · intro h
    rcases hk with h2 | h2 | h2 <;> rw [h] at h2 <;> exact absurd h2 (by decide)
  · intro hna
    rw [haw] at hna
    cases hna
  · intro h
    rcases hk with h2 | h2 | h2 <;> rw [h] at h2 <;> exact absurd h2 (by decide)

/-- C9 counterexample: the mid-stream `segment_end` emitted when a tool
interrupts a segment is fire-and-forget (session.ts line 379), refuting the
claim that every `segment_end` invocation is awaited. -/
theorem callback_await_counterexample :
    ∃ e ∈ (sendMessageStreaming
        { checkCommandSafety := fun _ => (true, ""), isPathAllowed := fun _ => true,
          TEMP_PATHS := [], STREAMING_THROTTLE_MS := 500,
          looksLikeError := fun _ => false, extractToolResultText := fun s => s,
          summarizeToolOutput := fun _ => "", formatToolStatus := fun n _ => n,
          formatToolErrorStatus := fun s => s, formatToolDoneStatus := fun s => s,
          hasCtxChat := false, askUserPending := false }
        [{ ev := .assistant [.text "hi there" 0, .toolUse "Glob" {} "t1"] }]
        none false false 7 {}).emissions,
      e.kind = .segEnd ∧ e.awaited = false := by
  decide

/-- C9 (amended): every text and done invocation is awaited; thinking and
tool_done invocations are always fire-and-forget; every fire-and-forget
invocation is of kind thinking, tool, tool_done or segment_end; the
`segment_end` emitted mid-stream when a tool interrupts a segment is
fire-and-forget, while every result-assembly emission (final `segment_end`,
timeout notice, `done`) is awaited; a tool invocation is awaited only for
the safety-block announcements. -/
theorem callback_await_discipline (c : Collab) (arrivals : List Arrival)
    (streamErr : Option String) (timedOut src : Bool) (now : Nat) (sess : SessionState) :
    (∀ e ∈ (sendMessageStreaming c arrivals streamErr timedOut src now sess).emissions,
      AwaitSpec e) ∧
    (∀ e ∈ (processEvents c (initLoopState sess) arrivals).1,
      e.kind = .segEnd → e.awaited = false) ∧
    (sess.stopRequested = false →
      ∃ tail, (sendMessageStreaming c arrivals streamErr timedOut src now sess).emissions =
        (processEvents c (initLoopState sess) arrivals).1 ++ tail ∧
        ∀ e ∈ tail, e.awaited = true) := by
  obtain ⟨_, hems⟩ := processEvents_stepOK c arrivals (initLoopState sess)
  have hloop := awaitSpec_of_emsOK hems
  have htail := awaitSpec_of_tail (processEvents c (initLoopState sess) arrivals).2.1 timedOut
  refine ⟨?_, ?_, ?_⟩
  · rcases sendMS_shape c arrivals streamErr timedOut src now sess with ⟨_, hemp⟩ | heq | heq
    · rw [hemp]
      intro e he
      cases he
    · rw [heq]
      exact hloop
    · rw [heq]
      intro e he
      rcases List.mem_append.mp he with h | h
      · exact hloop e h
      · exact htail e h
  · intro e he hk
    exact (hems e he).2.2.2.1 hk
  · intro hsr
    rcases sendMS_shape c arrivals streamErr timedOut src now sess with ⟨hsr2, _⟩ | heq | heq
    · rw [hsr2] at hsr
      cases hsr
    · exact ⟨[], by rw [heq, List.append_nil], fun e he => absurd he (List.not_mem_nil e)⟩
    · refine ⟨(resultAssembly (processEvents c (initLoopState sess) arrivals).2.1 timedOut).1,
        heq, ?_⟩
      intro e he
      exact (resultAssembly_kinds _ _ e he).2

/-- Witness for C9 at a concrete run: the theorem applies with the
pending-stop hypothesis discharged, and classifies a concrete thinking
emission as fire-and-forget. -/
theorem callback_await_discipline_witness :
    (∃ tail, (sendMessageStreaming
        { checkCommandSafety := fun _ => (true, ""), isPathAllowed := fun _ => true,
          TEMP_PATHS := [], STREAMING_THROTTLE_MS := 500,
          looksLikeError := fun _ => false, extractToolResultText := fun s => s,
          summarizeToolOutput := fun _ => "", formatToolStatus := fun n _ => n,
          formatToolErrorStatus := fun s => s, formatToolDoneStatus := fun s => s,
          hasCtxChat := false, askUserPending := false }
        [{ ev := .assistant [.thinking "pondering"] }]
        none false false 7 {}).emissions =
      (processEvents
        { checkCommandSafety := fun _ => (true, ""), isPathAllowed := fun _ => true,
          TEMP_PATHS := [], STREAMING_THROTTLE_MS := 500,
          looksLikeError := fun _ => false, extractToolResultText := fun s => s,
          summarizeToolOutput := fun _ => "", formatToolStatus := fun n _ => n,
          formatToolErrorStatus := fun s => s, formatToolDoneStatus := fun s => s,
          hasCtxChat := false, askUserPending := false }
        (initLoopState {}) [{ ev := .assistant [.thinking "pondering"] }]).1 ++ tail ∧
      ∀ e ∈ tail, e.awaited = true) ∧
    AwaitSpec { kind := .thinking, payload := "pondering", awaited := false } := by
  have h := callback_await_discipline
    { checkCommandSafety := fun _ => (true, ""), isPathAllowed := fun _ => true,
      TEMP_PATHS := [], STREAMING_THROTTLE_MS := 500,
      looksLikeError := fun _ => false, extractToolResultText := fun s => s,
      summarizeToolOutput := fun _ => "", formatToolStatus := fun n _ => n,
      formatToolErrorStatus := fun s => s, formatToolDoneStatus := fun s => s,
      hasCtxChat := false, askUserPending := false }
    [{ ev := .assistant [.thinking "pondering"] }] none false false 7 {}
  exact ⟨h.2.2 rfl, h.1 _ (by decide)⟩

/-!
## C4 — inactivity timeout preserves the partial response
-/

/-- C4: when the inactivity watchdog has fired during a query (so the
`timedOut` flag is set and any error the aborted stream raises matches the
abort pattern and is suppressed), the send call returns the accumulated
partial text followed by a blank line and the timeout notice — or the
notice alone when no text accumulated — and before returning it flushes the
open segment, then emits the notice as a `text` update and a `segment_end`
for a fresh trailing segment id, followed by `done`; the partial response is
never discarded. -/
theorem timeout_preserves_partial_text (c : Collab) (arrivals : List Arrival)
    (streamErr : Option String) (src : Bool) (now : Nat) (sess : SessionState)
    (hsr : sess.stopRequested = false)
    (hnb : ∀ m, (processEvents c (initLoopState sess) arrivals).2.2 ≠ .blocked m)
    (hask : (processEvents c (initLoopState sess) arrivals).2.1.askUserTriggered = false)
    (hstream : streamErr = none ∨
      ∃ e, streamErr = some e ∧ jsIncludes (jsToLower e) "abort" = true) :
    ((sendMessageStreaming c arrivals streamErr true src now sess).ret =
      .ok (if jsTruthy (String.join
            (processEvents c (initLoopState sess) arrivals).2.1.responseParts) then
          String.join (processEvents c (initLoopState sess) arrivals).2.1.responseParts ++
            "\n\n" ++ timeoutNotice
        else timeoutNotice)) ∧
    ((sendMessageStreaming c arrivals streamErr true src now sess).emissions =
      (processEvents c (initLoopState sess) arrivals).1 ++
        ((if jsTruthy (processEvents c (initLoopState sess) arrivals).2.1.currentSegmentText then
            [{ kind := .segEnd,
               payload := (processEvents c (initLoopState sess) arrivals).2.1.currentSegmentText,
               segId := some (processEvents c (initLoopState sess) arrivals).2.1.currentSegmentId,
               awaited := true }]
          else []) ++
          [{ kind := .text, payload := timeoutNotice,
             segId := some ((processEvents c (initLoopState sess) arrivals).2.1.currentSegmentId + 1),
             awaited := true },
           { kind := .segEnd, payload := timeoutNotice,
             segId := some ((processEvents c (initLoopState sess) arrivals).2.1.currentSegmentId + 1),
             awaited := true },
           { kind := .done, payload := "", awaited := true }])) ∧
    (∀ i ∈ segIds (processEvents c (initLoopState sess) arrivals).1,
      i < (processEvents c (initLoopState sess) arrivals).2.1.currentSegmentId + 1) := by
  have hra : resultAssembly (processEvents c (initLoopState sess) arrivals).2.1 true =
      ((if jsTruthy (processEvents c (initLoopState sess) arrivals).2.1.currentSegmentText then
          [{ kind := .segEnd,
             payload := (processEvents c (initLoopState sess) arrivals).2.1.currentSegmentText,
             segId := some (processEvents c (initLoopState sess) arrivals).2.1.currentSegmentId,
             awaited := true }]
        else []) ++
        [{ kind := .text, payload := timeoutNotice,
           segId := some ((processEvents c (initLoopState sess) arrivals).2.1.currentSegmentId + 1),
           awaited := true },
         { kind := .segEnd, payload := timeoutNotice,
           segId := some ((processEvents c (initLoopState sess) arrivals).2.1.currentSegmentId + 1),
           awaited := true },
         { kind := .done, payload := "", awaited := true }],
       if jsTruthy (String.join
           (processEvents c (initLoopState sess) arrivals).2.1.responseParts) then
         String.join (processEvents c (initLoopState sess) arrivals).2.1.responseParts ++
           "\n\n" ++ timeoutNotice
       else timeoutNotice) := by
    unfold resultAssembly
    rw [if_neg (by simp [hask])]
    rfl
  have hfin : sendMessageStreaming c arrivals streamErr true src now sess =
      { emissions := (processEvents c (initLoopState sess) arrivals).1 ++
          (resultAssembly (processEvents c (initLoopState sess) arrivals).2.1 true).1,
        ret := .ok (resultAssembly (processEvents c (initLoopState sess) arrivals).2.1 true).2,
        sess := { sess with
          sessionId := (processEvents c (initLoopState sess) arrivals).2.1.sessionId,
          lastActivity := some now,
          queryStarted := false,
          currentTool := none,
          lastTool := (processEvents c (initLoopState sess) arrivals).2.1.lastTool,
          lastError := none,
          lastErrorTime := none,
          lastUsage := (processEvents c (initLoopState sess) arrivals).2.1.lastUsage,
          hasAbortController := false,
          abortSignalled := false,
          isQueryRunning := false,
          stopRequested := false } } := by
    rcases hstream with h | ⟨e, he, habort⟩
    · subst h
      exact sendMS_finalize c arrivals true src now sess hsr hnb
    · subst he
      refine sendMS_finalize_suppressed c arrivals e true src now sess hsr hnb ?_
      simp [habort]
  obtain ⟨hstep, _⟩ := processEvents_stepOK c arrivals (initLoopState sess)
  refine ⟨?_, ?_, ?_⟩
  · rw [hfin, hra]
  · rw [hfin, hra]
  · intro i hi
    have := hstep.ids_ub i hi
    omega

/-- Witness for C4, matching the spec scenario: partial text
`"Here are the result"` accumulated, watchdog fired → the return value is
the partial text, a blank line and the timeout notice. -/
theorem timeout_preserves_partial_text_witness :
    (sendMessageStreaming
        { checkCommandSafety := fun _ => (true, ""), isPathAllowed := fun _ => true,
          TEMP_PATHS := [], STREAMING_THROTTLE_MS := 500,
          looksLikeError := fun _ => false, extractToolResultText := fun s => s,
          summarizeToolOutput := fun _ => "", formatToolStatus := fun n _ => n,
          formatToolErrorStatus := fun s => s, formatToolDoneStatus := fun s => s,
          hasCtxChat := false, askUserPending := false }
        [{ ev := .assistant [.text "Here are the result" 0] }]
        (some "Error: The operation was aborted") true false 7 {}).ret =
      .ok ("Here are the result\n\n" ++ timeoutNotice) := by
  have h := timeout_preserves_partial_text
    { checkCommandSafety := fun _ => (true, ""), isPathAllowed := fun _ => true,
      TEMP_PATHS := [], STREAMING_THROTTLE_MS := 500,
      looksLikeError := fun _ => false, extractToolResultText := fun s => s,
      summarizeToolOutput := fun _ => "", formatToolStatus := fun n _ => n,
      formatToolErrorStatus := fun s => s, formatToolDoneStatus := fun s => s,
      hasCtxChat := false, askUserPending := false }
    [{ ev := .assistant [.text "Here are the result" 0] }]
    (some "Error: The operation was aborted") false 7 {}
    rfl ?hnb (by decide) (Or.inr ⟨"Error: The operation was aborted", rfl, by decide⟩)
  case hnb =>
    intro m hm
    have hfin : (processEvents
        { checkCommandSafety := fun _ => (true, ""), isPathAllowed := fun _ => true,
          TEMP_PATHS := [], STREAMING_THROTTLE_MS := 500,
          looksLikeError := fun _ => false, extractToolResultText := fun s => s,
          summarizeToolOutput := fun _ => "", formatToolStatus := fun n _ => n,
          formatToolErrorStatus := fun s => s, formatToolDoneStatus := fun s => s,
          hasCtxChat := false, askUserPending := false }
        (initLoopState {})
        [{ ev := .assistant [.text "Here are the result" 0] }]).2.2 =
        LoopExit.finished := by decide
    rw [hfin] at hm
    cases hm
  rw [h.1]
  decide

end TgBot
